import Mathlib

/-!
Verification of the Hashlife-MNCA simulation engine.

The development shallowly embeds the Rust sources `src/sim.rs` and
`src/kernels.rs`.  The repository's `array2d` module is referenced by both
files but is not present under `src/`; its container is modelled from the
specification (§4.1).  The `u8` neighbour sums of the hand-written Life
kernel cannot exceed 8 and are modelled as `Nat`; the `u16` per-layer counts
of the layered kernel are modelled as `Nat` values wrapping at `2^16`, since
a valid mask of width 257 or more has area above 65535 and can overflow the
counter.  Fallible operations (assertion failures, unwraps and
out-of-range indexing surfaced as panics) are modelled with `Option`.
-/

/-- Modelled from the spec: the repository's `array2d` module (`Array2D<T>`)
is missing from `src/`.  Per §4.1 it is a value-typed rectangular container
with row-major flat storage: "construct zero/default-filled of given (w, h);
construct from a flat row-major vector plus width; read/write by (x, y) ...
Indexing is row-major: offset = x + w·y.  Out-of-range indexing is a
programmer error (panic/assert)." -/
structure Array2D (α : Type) where
  width : Nat
  data : List α
deriving DecidableEq

/-- Height of the container: the flat length divided by the width. -/
def Array2D.height {α : Type} (a : Array2D α) : Nat :=
  a.data.length / a.width

/-- Modelled from the spec: "construct zero/default-filled of given (w, h)". -/
def Array2D.new (α : Type) [Inhabited α] (w h : Nat) : Array2D α :=
  ⟨w, List.replicate (w * h) default⟩

/-- Modelled from the spec: "construct from a flat row-major vector plus width". -/
def Array2D.from_array {α : Type} (w : Nat) (d : List α) : Array2D α :=
  ⟨w, d⟩

/-- Row-major flat offset `x + w·y`. -/
def Array2D.idx {α : Type} (a : Array2D α) (x y : Nat) : Nat :=
  x + a.width * y

/-- Bounds-checked read: `none` models the Rust panic on out-of-range `(x, y)`. -/
def Array2D.get? {α : Type} (a : Array2D α) (x y : Nat) : Option α :=
  if x < a.width ∧ y < a.height then a.data.get? (a.idx x y) else none

/-- Total read used where the embedded code only ever reads in bounds;
out-of-range reads give the default element. -/
def Array2D.get {α : Type} [Inhabited α] (a : Array2D α) (x y : Nat) : α :=
  if x < a.width ∧ y < a.height then a.data.getD (a.idx x y) default else default

/-- Write by `(x, y)`; out-of-range writes (a panic in Rust) leave the
container unchanged, which is only exercised in bounds below. -/
def Array2D.set {α : Type} (a : Array2D α) (x y : Nat) (v : α) : Array2D α :=
  if x < a.width ∧ y < a.height then ⟨a.width, a.data.set (a.idx x y) v⟩ else a

/-! ## Blocks and the kernel contract (`src/sim.rs`, `src/kernels.rs`)

`src/kernels.rs` manipulates blocks as `Array2D<bool>` values (it indexes
them by `(x, y)`, asks for their `width()`, and returns `Array2D::from_array`
results), so a block is embedded as `Array2D Bool`. -/

abbrev Blk := Array2D Bool

instance : Inhabited Blk := ⟨⟨0, []⟩⟩

/-- `KernelResult` from `src/sim.rs`. -/
inductive KernelResult where
  | NewBlock
  | Approximate
deriving DecidableEq

/-- The `[Block; 4]` argument of `exec`: index 0 = NW, 1 = NE, 2 = SW, 3 = SE. -/
structure Blocks4 where
  b0 : Blk
  b1 : Blk
  b2 : Blk
  b3 : Blk
deriving DecidableEq

/-- `blocks[i]` for `i` in `0..4` (the Rust code only forms indices `i + 2*j`
with `i, j < 2`). -/
def Blocks4.blk (bs : Blocks4) : Nat → Blk
  | 0 => bs.b0
  | 1 => bs.b1
  | 2 => bs.b2
  | _ => bs.b3

/-- `calc_block_width` / `Block::width` from `src/sim.rs`: `1 << order`. -/
def calc_block_width (order : Nat) : Nat := 2 ^ order

/-- `Block::zero` from `src/sim.rs`: a `w × w` block of dead cells. -/
def Block.zero (w : Nat) : Blk := ⟨w, List.replicate (w * w) false⟩

/-- `Block::zeros_like` from `src/sim.rs`: dead cells, same shape as `other`. -/
def Block.zeros_like (other : Blk) : Blk := ⟨other.width, List.replicate other.data.length false⟩

/-- `Block::index` from `src/sim.rs`: "X and Y wrap around block size",
`(x % w) + w * (y % w)`. -/
def Block.index (w : Nat) (x y : Nat) : Nat := (x % w) + w * (y % w)

/-- `Block::get` from `src/sim.rs`: read the flat cell data at `Block.index`.
For the `w × w` blocks the grid stores, the wrapped index is always in
bounds, so the default on the missing case is never exercised there. -/
def Block.get (w : Nat) (b : Blk) (x y : Nat) : Bool := b.data.getD (Block.index w x y) false

/-- `Block::set` from `src/sim.rs`. -/
def Block.set (w : Nat) (b : Blk) (x y : Nat) (v : Bool) : Blk :=
  ⟨b.width, b.data.set (Block.index w x y) v⟩

/-! ## The hand-written Life kernel (`Life::exec`, src/kernels.rs lines 19-65) -/

/-- The block-copy loop shared by the two `exec` staging buffers: for `x`
(outer) and `y` (inner) in `0..w`, write `f x y` at `(x + i*w, y + j*w)`. -/
def copyInto {α : Type} (w : Nat) (f : Nat → Nat → α) (i j : Nat) (acc : Array2D α) :
    Array2D α :=
  (List.range w).foldl (fun acc3 x =>
    (List.range w).foldl (fun acc4 y =>
      acc4.set (x + i * w) (y + j * w) (f x y)) acc3) acc

/-- The 4 × 4 `u8` staging buffer of `Life::exec`: the four 2 × 2 input
blocks are copied to offsets `(2i, 2j)`, block `i + 2*j` at `(i, j)`.
`u8::from(bool)` is 0 or 1; sums of at most eight such values cannot
overflow, so `u8` is modelled as `Nat`. -/
def Life.buf (bs : Blocks4) : Array2D Nat :=
  (List.range 2).foldl (fun acc i =>
    (List.range 2).foldl (fun acc2 j =>
      copyInto 2 (fun x y => if (bs.blk (i + 2 * j)).get x y then 1 else 0) i j acc2)
      acc) (Array2D.new Nat 4 4)

/-- One output cell of `Life::exec`: count the eight neighbours of
`(ox + 1, oy + 1)` in the staging buffer and apply B3/S23. -/
def Life.cell (buf : Array2D Nat) (ox oy : Nat) : Bool :=
  let scan := (List.range 3).foldl (fun acc i =>
    (List.range 3).foldl (fun acc2 j =>
      if (i, j) ≠ (1, 1) then (acc2.1 + buf.get (i + ox) (j + oy), acc2.2)
      else (acc2.1, buf.get (i + ox) (j + oy))) acc) ((0 : Nat), (0 : Nat))
  if scan.2 = 1 then (scan.1 = 2 ∨ scan.1 = 3 : Bool) else (scan.1 = 3 : Bool)

/-- `Life::exec` from `src/kernels.rs`: the hand-written Conway kernel of
order 1.  The output cells are pushed in the order
`[(0,0), (1,0), (0,1), (1,1)]`, matching row-major `from_array(2, ..)`. -/
def Life.exec (bs : Blocks4) : Blk × KernelResult :=
  let buf := Life.buf bs
  let out_data := [((0 : Nat), (0 : Nat)), (1, 0), (0, 1), (1, 1)].map
    (fun p => Life.cell buf p.1 p.2)
  (Array2D.from_array 2 out_data, KernelResult.NewBlock)

/-! ## The layered convolution kernel (`LayeredKernel`, src/kernels.rs lines 68-166) -/

/-- `LayeredKernel` from `src/kernels.rs`.  The decider is a pure function
pointer `fn(bool, &[u16]) -> bool`; the counts it receives are `u16` values,
modelled as `Nat` below `2^16` (see `LayeredKernel.layerCount`). -/
structure LayeredKernel where
  decider : Bool → List Nat → Bool
  layers : List (Array2D Bool)
  block_order : Nat

/-- `calculate_block_order_from_kernel_width`: scan `k` in `0..=usize::BITS`
for `kernel_width = 2 * (1 << k) + 1` and answer `k + 1`; `none` models the
panic on invalid widths (`usize::BITS` is 64 on the host in question). -/
def calculate_block_order_from_kernel_width (kernel_width : Nat) : Option Nat :=
  (List.range (64 + 1)).findSome? (fun k =>
    if kernel_width = 2 * 2 ^ k + 1 then some (k + 1) else none)

/-- `LayeredKernel::new`: reads `layers[0]` (a panic when `layers` is empty),
asserts all layers share its dimensions, and derives the block order from
the first layer's width; `none` models the panics. -/
def LayeredKernel.new (decider : Bool → List Nat → Bool) (layers : List (Array2D Bool)) :
    Option LayeredKernel :=
  match layers.head? with
  | none => none
  | some l0 =>
    if layers.all (fun l => l.width == l0.width && l.height == l0.height) then
      (calculate_block_order_from_kernel_width l0.width).map
        (fun block_order => ⟨decider, layers, block_order⟩)
    else none

/-- The `(2w) × (2w)` staging buffer of `LayeredKernel::exec`: block
`i + 2*j` is copied to offset `(i*w, j*w)`. -/
def LayeredKernel.buf (w : Nat) (bs : Blocks4) : Array2D Bool :=
  (List.range 2).foldl (fun acc i =>
    (List.range 2).foldl (fun acc2 j =>
      copyInto w (fun x y => (bs.blk (i + 2 * j)).get x y) i j acc2) acc)
    (Array2D.new Bool (w * 2) (w * 2))

/-- The per-layer count of `LayeredKernel::exec`: scan the mask (`y` outer,
`x` inner) and count positions where the mask and the staging buffer are
both live.  The counter is a `u16` (`*count += 1`), modelled as a `Nat`
wrapping at `2^16`: for masks of area above 65535 (width 257 and up) the
count can overflow, and the wrap is observable in the output. -/
def LayeredKernel.layerCount (layer : Array2D Bool) (buf : Array2D Bool) (i j : Nat) : Nat :=
  (List.range layer.height).foldl (fun acc y =>
    (List.range layer.width).foldl (fun acc2 x =>
      if layer.get x y && buf.get (i + x) (j + y) then (acc2 + 1) % 65536 else acc2) acc) 0

/-- One output cell of `LayeredKernel::exec`: the decider applied to the
center cell `buf[(layers[0].width/2 + i, layers[0].height/2 + j)]` and the
per-layer counts.  `layers[0]` on an empty layer list is a Rust panic; the
`headD` default is never exercised for kernels built by `LayeredKernel::new`. -/
def LayeredKernel.cell (lk : LayeredKernel) (buf : Array2D Bool) (i j : Nat) : Bool :=
  lk.decider
    (buf.get ((lk.layers.headD default).width / 2 + i) ((lk.layers.headD default).height / 2 + j))
    (lk.layers.map (fun layer => LayeredKernel.layerCount layer buf i j))

/-- The loop body of `LayeredKernel::exec` (after the width assertion):
assemble the buffer, then push one output cell per `(i, j)` with `j` outer
and `i` inner, and wrap the result row-major with width `w`. -/
def LayeredKernel.run (lk : LayeredKernel) (bs : Blocks4) : Blk :=
  let w := calc_block_width lk.block_order
  let buf := LayeredKernel.buf w bs
  let out_data := (List.range w).foldl (fun acc j =>
    (List.range w).foldl (fun acc2 i =>
      acc2 ++ [lk.cell buf i j]) acc) []
  Array2D.from_array w out_data

/-- `LayeredKernel::exec` from `src/kernels.rs`: `assert_eq!(w,
blocks[0].width())` — only the first block's width is checked — then the
convolution loop.  `none` models the assertion panic. -/
def LayeredKernel.exec (lk : LayeredKernel) (bs : Blocks4) : Option (Blk × KernelResult) :=
  let w := calc_block_width lk.block_order
  if bs.b0.width = w then some (lk.run bs, KernelResult.NewBlock) else none

/-! ## `life_layered_kernel` (src/kernels.rs lines 200-225) -/

/-- The decider of `life_layered_kernel`: survive on 2 or 3, birth on 3. -/
def lifeDecider (center : Bool) (counts : List Nat) : Bool :=
  let neighbors := counts.getD 0 0
  if center then (neighbors = 2 ∨ neighbors = 3 : Bool) else (neighbors = 3 : Bool)

/-- The 3 × 3 eight-neighbour ring mask of `life_layered_kernel`. -/
def lifeRing : Array2D Bool :=
  Array2D.from_array 3
    ([1, 1, 1,
      1, 0, 1,
      1, 1, 1].map (fun i => i == 1))

/-- `life_layered_kernel` from `src/kernels.rs`, through `LayeredKernel::new`. -/
def life_layered_kernel : Option LayeredKernel := LayeredKernel.new lifeDecider [lifeRing]

/-- The kernel value `life_layered_kernel` constructs (order 1). -/
def lifeLK : LayeredKernel := ⟨lifeDecider, [lifeRing], 1⟩

/-! ## The memoizing wrapper (`KernelCache`, src/kernels.rs lines 350-447)

The hash maps (`AHashMap`) are embedded as association lists looked up by
first match, the `LruCache` as a most-recently-used-first list with capacity
8888.  `summarize(arr, step)` is `arr.clone()`, so blocks key the content-id
map by full content.  The wrapped kernel is a `Box<dyn Kernel>` whose `exec`
result tag is discarded; claims about the wrapper assume a deterministic
inner kernel, so it is embedded as a pure function `Blocks4 → Blk`. -/

/-- First-match association-list lookup (the model of `AHashMap` reads). -/
def lookupA {κ β : Type} [DecidableEq κ] : List (κ × β) → κ → Option β
  | [], _ => none
  | (k', v) :: rest, k => if k = k' then some v else lookupA rest k

/-- `summarize` from `src/kernels.rs`: with `Summary = Array2D<bool>` it is
`arr.clone()` and the downsampling step is unused. -/
def summarize (arr : Blk) (_step : Nat) : Blk := arr

/-- A solutions-LRU key: the four content ids, in block order NW, NE, SW, SE. -/
abbrev CKey := Nat × Nat × Nat × Nat

/-- `KernelCache` from `src/kernels.rs`: `cache` is the content-id map,
`solutions` the LRU (most recent first), `values` the id-to-content map. -/
structure KernelCache where
  cache : List (Blk × Nat)
  solutions : List (CKey × Nat)
  values : List (Nat × Blk)
  hits : Nat
  next_idx : Nat

/-- `KernelCache::new`: empty tables (the LRU capacity 8888 lives in `exec`). -/
def KernelCache.init : KernelCache := ⟨[], [], [], 0, 0⟩

/-- The `cache.entry(summarize(..)).or_insert_with(..)` idiom: look up the
block's content id, assigning `next_idx` (and recording the content in
`values`) on a miss. -/
def KernelCache.getId (s : KernelCache) (b : Blk) : Nat × KernelCache :=
  match lookupA s.cache (summarize b 1) with
  | some i => (i, s)
  | none =>
    (s.next_idx,
      { s with
        cache := (summarize b 1, s.next_idx) :: s.cache
        values := (s.next_idx, b) :: s.values
        next_idx := s.next_idx + 1 })

/-- An `LruCache::get`: promote the key's entry to most-recently-used
(no-op when absent). -/
def lruPromote (l : List (CKey × Nat)) (k : CKey) : List (CKey × Nat) :=
  match lookupA l k with
  | some v => (k, v) :: l.filter (fun p => !(decide (p.1 = k)))
  | none => l

/-- The ids reachable from the solutions LRU: each entry contributes its
four key ids and its value id (`in_cache` in the garbage collector). -/
def solutionIds (solutions : List (CKey × Nat)) : List Nat :=
  solutions.foldr
    (fun p acc => p.1.1 :: p.1.2.1 :: p.1.2.2.1 :: p.1.2.2.2 :: p.2 :: acc) []

/-- The garbage collector body: retain only content-id-map entries whose id
and value-map entries whose key are reachable from the solutions LRU. -/
def KernelCache.gc (s : KernelCache) : KernelCache :=
  let in_cache := solutionIds s.solutions
  { s with
    cache := s.cache.filter (fun p => decide (p.2 ∈ in_cache))
    values := s.values.filter (fun p => decide (p.1 ∈ in_cache)) }

/-- The id-assignment prologue of `KernelCache::exec`: intern the four
input blocks in order and form the solutions key. -/
def KernelCache.assign4 (s : KernelCache) (bs : Blocks4) : CKey × KernelCache :=
  let r0 := s.getId bs.b0
  let r1 := r0.2.getId bs.b1
  let r2 := r1.2.getId bs.b2
  let r3 := r2.2.getId bs.b3
  ((r0.1, r1.1, r2.1, r3.1), r3.2)

/-- The hit block of `KernelCache::exec`: on an LRU hit promote the entry,
bump the hit counter, and garbage-collect when either map holds more than
10 000 entries. -/
def KernelCache.hitPhase (s : KernelCache) (k : CKey) : KernelCache :=
  if (lookupA s.solutions k).isSome then
    if 10000 < s.cache.length ∨ 10000 < s.values.length then
      { s with solutions := lruPromote s.solutions k, hits := s.hits + 1 }.gc
    else
      { s with solutions := lruPromote s.solutions k, hits := s.hits + 1 }
  else s

/-- The `solutions.get_or_insert` epilogue of `KernelCache::exec`: on a hit
promote and answer the cached id; on a miss run the wrapped kernel, intern
its output, insert the new entry and evict the least recently used entry
beyond capacity 8888.  The block returned is `values[soln_idx]`; `none`
models the `unwrap` panic. -/
def KernelCache.finish (f : Blocks4 → Blk) (bs : Blocks4) (s : KernelCache) (k : CKey) :
    Option Blk × KernelCache :=
  match lookupA s.solutions k with
  | some i => (lookupA s.values i, { s with solutions := lruPromote s.solutions k })
  | none =>
    let soln := f bs
    let r5 := s.getId soln
    let sols0 := (k, r5.1) :: r5.2.solutions
    let sols := if 8888 < sols0.length then sols0.dropLast else sols0
    (lookupA r5.2.values r5.1, { r5.2 with solutions := sols })

/-- `KernelCache::exec` from `src/kernels.rs` for a pure inner kernel `f`:
assign ids, run the hit block, then resolve or insert the solution. -/
def KernelCache.exec (f : Blocks4 → Blk) (bs : Blocks4) (s : KernelCache) :
    Option Blk × KernelCache :=
  let a := s.assign4 bs
  KernelCache.finish f bs (a.2.hitPhase a.1) a.1

/-- Cache states reachable from `KernelCache::new` by `exec` calls with the
pure inner kernel `f`. -/
inductive KernelCache.Reachable (f : Blocks4 → Blk) : KernelCache → Prop where
  | init : KernelCache.Reachable f KernelCache.init
  | step (bs : Blocks4) {s : KernelCache} :
      KernelCache.Reachable f s → KernelCache.Reachable f (KernelCache.exec f bs s).2

/-! ## The dense grid (`Dense`, src/sim.rs lines 26-113)

The Rust struct `Dense` is embedded as `DenseGrid` (Mathlib already owns the
name `Dense`).  It owns a `Box<dyn Kernel>`; the claims below concern its behaviour
with a fixed deterministic kernel, so the grid carries the kernel's `order`
and the step function takes the kernel's block transition `K : Blocks4 → Blk`
as a parameter (the `KernelResult` tag is destructured away by `step`). -/

structure DenseGrid where
  back : Array2D Blk
  front : Array2D Blk
  order : Nat
  zero_borders : Bool

/-- `get_block_zero_borders` from `src/sim.rs`: out-of-range coordinates
yield a fresh zero block shaped like `arr[(0, 0)]`. -/
def get_block_zero_borders (arr : Array2D Blk) (x y : Int) : Blk :=
  if x < 0 ∨ y < 0 ∨ (arr.width : Int) ≤ x ∨ (arr.height : Int) ≤ y then
    Block.zeros_like (arr.get 0 0)
  else
    arr.get x.toNat y.toNat

/-- `Dense::new` from `src/sim.rs`: `(width + 1) * (height + 1)` zero blocks
of side `2^order`, handed to `Array2D::from_array` with width `width`
(`width`, not `width + 1`, despite the comment "we add 1 to width and
height"). -/
def DenseGrid.new (order width height : Nat) : DenseGrid :=
  let zeros : List Blk := List.replicate ((width + 1) * (height + 1)) (Block.zero (calc_block_width order))
  { front := Array2D.from_array width zeros
    back := Array2D.from_array width zeros
    order := order
    zero_borders := true }

/-- The four source blocks gathered by `Dense::step` for destination
`(i, j)`: origin `(i-1, j-1)` in the `zero_borders` phase, `(i, j)`
otherwise, then the 2 × 2 meta-square from the front buffer with fixed-zero
boundary. -/
def DenseGrid.gather (front : Array2D Blk) (zb : Bool) (i j : Nat) : Blocks4 :=
  let x : Int := if zb then (i : Int) - 1 else (i : Int)
  let y : Int := if zb then (j : Int) - 1 else (j : Int)
  ⟨get_block_zero_borders front x y,
    get_block_zero_borders front (x + 1) y,
    get_block_zero_borders front x (y + 1),
    get_block_zero_borders front (x + 1) (y + 1)⟩

/-- `Dense::step` from `src/sim.rs`: for `i` in `0..front.width()-1` (outer)
and `j` in `0..front.height()-1` (inner), write the kernel's output for the
gathered blocks to `back[(i, j)]`; then swap the buffers and toggle
`zero_borders`. -/
def DenseGrid.step (K : Blocks4 → Blk) (d : DenseGrid) : DenseGrid :=
  let newBack :=
    (List.range (d.front.width - 1)).foldl (fun acc i =>
      (List.range (d.front.height - 1)).foldl (fun acc2 j =>
        acc2.set i j (K (DenseGrid.gather d.front d.zero_borders i j))) acc) d.back
  { back := d.front
    front := newBack
    order := d.order
    zero_borders := !d.zero_borders }

/-- `n` consecutive `Dense::step` calls. -/
def DenseGrid.stepN (K : Blocks4 → Blk) : Nat → DenseGrid → DenseGrid
  | 0, d => d
  | n + 1, d => DenseGrid.stepN K n (DenseGrid.step K d)

/-- `Dense::pixel_dims` from `src/sim.rs`: the front buffer's dimensions
scaled by the block width. -/
def DenseGrid.pixel_dims (d : DenseGrid) : Nat × Nat :=
  let w := calc_block_width d.order
  (d.front.width * w, d.front.height * w)

/-- `Dense::index_block_pixel` from `src/sim.rs`: the pixel coordinates,
shifted by half a block width in the offset phase — the code passes this
pair on as a block index without dividing by the block width. -/
def DenseGrid.index_block_pixel (d : DenseGrid) (x y : Nat) : Nat × Nat :=
  let w := calc_block_width d.order
  if !d.zero_borders then (x + w / 2, y + w / 2) else (x, y)

/-- `Dense::get_pixel` from `src/sim.rs`: index the front buffer's block
array at `index_block_pixel` (`none` models the out-of-range panic) and read
the block cell at the raw pixel coordinates modulo the block width. -/
def DenseGrid.get_pixel? (d : DenseGrid) (x y : Nat) : Option Bool :=
  let bi := d.index_block_pixel x y
  (d.front.get? bi.1 bi.2).map (fun blk => Block.get (calc_block_width d.order) blk x y)

/-! ## Spec-side definitions

Closed-form descriptions written from the specification's words, to be
related to the loop-based source embeddings above. -/

/-- Spec §4.2 step 1: the `(2w) × (2w)` assembly described pointwise, with
the four input blocks at NW = (0,0), NE = (w,0), SW = (0,w), SE = (w,w). -/
def specBuf (w : Nat) (bs : Blocks4) (x y : Nat) : Bool :=
  if x < w then
    if y < w then bs.b0.get x y else bs.b2.get x (y - w)
  else
    if y < w then bs.b1.get (x - w) y else bs.b3.get (x - w) (y - w)

/-- Spec §4.2 step 2b: `counts[ℓ]` is the number of positions `(x, y)` with
`layer_ℓ[x,y]` and `buf[i+x, j+y]` both true. -/
def specLayerCount (layer : Array2D Bool) (bufF : Nat → Nat → Bool) (i j : Nat) : Nat :=
  ((Finset.range layer.width ×ˢ Finset.range layer.height).filter
    (fun p => layer.get p.1 p.2 = true ∧ bufF (i + p.1) (j + p.2) = true)).card

/-- The per-layer counts, in layer order. -/
def specCounts (lk : LayeredKernel) (bufF : Nat → Nat → Bool) (i j : Nat) : List Nat :=
  lk.layers.map (fun layer => specLayerCount layer bufF i j)

/-- The mask width `M` of a layered kernel (the width of `layers[0]`). -/
def LayeredKernel.maskWidth (lk : LayeredKernel) : Nat :=
  (lk.layers.headD default).width

/-- A well-formed layered kernel in the sense of §4.2: a non-empty list of
`M × M` masks with `M = 2·2^(order−1) + 1` and `order ≥ 1`. -/
def LayeredKernel.Valid (lk : LayeredKernel) : Prop :=
  lk.layers ≠ [] ∧ 1 ≤ lk.block_order ∧
  lk.maskWidth = 2 * 2 ^ (lk.block_order - 1) + 1 ∧
  ∀ layer ∈ lk.layers,
    layer.width = lk.maskWidth ∧ layer.height = lk.maskWidth ∧
    layer.data.length = lk.maskWidth * lk.maskWidth

/-- Four `w × w` blocks (the kernel contract's precondition). -/
def Blocks4.Sized (bs : Blocks4) (w : Nat) : Prop :=
  (bs.b0.width = w ∧ bs.b0.height = w ∧ bs.b0.data.length = w * w) ∧
  (bs.b1.width = w ∧ bs.b1.height = w ∧ bs.b1.data.length = w * w) ∧
  (bs.b2.width = w ∧ bs.b2.height = w ∧ bs.b2.data.length = w * w) ∧
  (bs.b3.width = w ∧ bs.b3.height = w ∧ bs.b3.data.length = w * w)

/-- Spec §4.3 observable coordinates, corrected form: decompose the
(phase-shifted) pixel coordinates into a block index by dividing by the
block width, and an intra-block offset by reducing modulo the block width. -/
def DenseGrid.spec_get_pixel (d : DenseGrid) (x y : Nat) : Option Bool :=
  let w := calc_block_width d.order
  let p := d.index_block_pixel x y
  (d.front.get? (p.1 / w) (p.2 / w)).map (fun blk => Block.get w blk p.1 p.2)

/-- Every cell of the block is dead. -/
def blkAllDead (b : Blk) : Prop := ∀ c ∈ b.data, c = false

/-- Every cell of every block of both buffers is dead. -/
def DenseGrid.AllDead (d : DenseGrid) : Prop :=
  (∀ b ∈ d.front.data, blkAllDead b) ∧ (∀ b ∈ d.back.data, blkAllDead b)

/-- The invariant tying the three tables of `KernelCache` together for a
pure inner kernel `f`: the content-id map and the value map are inverse
finite maps with unique keys, ids are below `next_idx`, and every
solutions-LRU entry records `f` of the contents of its key ids. -/
structure CacheInv (f : Blocks4 → Blk) (s : KernelCache) : Prop where
  cnodup : (s.cache.map Prod.fst).Nodup
  vnodup : (s.values.map Prod.fst).Nodup
  cv : ∀ p ∈ s.cache, (p.2, p.1) ∈ s.values
  vc : ∀ q ∈ s.values, (q.2, q.1) ∈ s.cache
  cbound : ∀ p ∈ s.cache, p.2 < s.next_idx
  vbound : ∀ q ∈ s.values, q.1 < s.next_idx
  sol : ∀ e ∈ s.solutions, ∃ c0 c1 c2 c3,
    (e.1.1, c0) ∈ s.values ∧ (e.1.2.1, c1) ∈ s.values ∧
    (e.1.2.2.1, c2) ∈ s.values ∧ (e.1.2.2.2, c3) ∈ s.values ∧
    (e.2, f ⟨c0, c1, c2, c3⟩) ∈ s.values

/-! ## Grid dimensions across steps -/

/-- Both buffers have width `fw` and height `fh`. -/
def DenseGrid.DimsEq (d : DenseGrid) (fw fh : Nat) : Prop :=
  d.front.width = fw ∧ d.front.height = fh ∧ d.back.width = fw ∧ d.back.height = fh

/-! ## Concrete data for witnesses and counterexamples -/

def blkA : Blk := Array2D.from_array 2 [true, false, false, true]

def blkB : Blk := Array2D.from_array 2 [true, true, false, false]

def blkC : Blk := Array2D.from_array 2 [false, true, true, false]

def blkD : Blk := Array2D.from_array 2 [true, true, true, false]

def blk3 : Blk := Array2D.from_array 3 (List.replicate 9 false)

def blk4 : Blk := Array2D.from_array 4 (List.replicate 16 true)

def blkFull : Blk := Array2D.from_array 2 [true, true, true, true]

/-- A 1 × 1 grid as `Dense::new(kernel, 1, 1)` builds it (a 1 × 4 block
array under the actual constructor), with the block at `(0, 0)` seeded all
live through the bulk initialization hook. -/
def d2cx : DenseGrid :=
  { front := Array2D.from_array 1 [blkFull, Block.zero 2, Block.zero 2, Block.zero 2]
    back := Array2D.from_array 1 (List.replicate 4 (Block.zero 2))
    order := 1
    zero_borders := true }

/-- A grid whose front buffer is a 2 × 2 array of distinct 2 × 2 blocks. -/
def d6cx : DenseGrid :=
  { front := Array2D.from_array 2 [Block.zero 2, blkA, blkB, blkC]
    back := Array2D.from_array 2 (List.replicate 4 (Block.zero 2))
    order := 1
    zero_borders := true }

/-- A trivial deterministic inner kernel for the cache witnesses. -/
def constKernel : Blocks4 → Blk := fun _ => Block.zero 2

def bs0 : Blocks4 := ⟨blkA, blkB, blkC, blkD⟩

/-- An all-ones 257 × 257 mask: the smallest valid mask width whose area,
66049, exceeds the `u16` range. -/
def bigMask : Array2D Bool := ⟨257, List.replicate (257 * 257) true⟩

/-- A decider that reports whether the first count equals the full mask
area 66049. -/
def bigDecider (center : Bool) (counts : List Nat) : Bool :=
  counts.getD 0 0 == 66049

/-- A valid order-8 kernel (`M = 257 = 2·2^7 + 1`, block side `w = 256`)
whose per-layer `u16` count overflows on all-live input. -/
def bigLK : LayeredKernel := ⟨bigDecider, [bigMask], 8⟩

/-- An all-live 256 × 256 block. -/
def blkT : Blk := ⟨256, List.replicate (256 * 256) true⟩

/-- Four all-live 256 × 256 blocks. -/
def bsT : Blocks4 := ⟨blkT, blkT, blkT, blkT⟩

/-! # Theorems -/

@[simp] theorem Array2D.width_set {α : Type} (a : Array2D α) (x y : Nat) (v : α) :
    (a.set x y v).width = a.width := by
  unfold Array2D.set; split <;> rfl

@[simp] theorem Array2D.length_data_set {α : Type} (a : Array2D α) (x y : Nat) (v : α) :
    (a.set x y v).data.length = a.data.length := by
  unfold Array2D.set; split <;> simp

@[simp] theorem Array2D.height_set {α : Type} (a : Array2D α) (x y : Nat) (v : α) :
    (a.set x y v).height = a.height := by
  unfold Array2D.height
  rw [Array2D.length_data_set, Array2D.width_set]

theorem Array2D.idx_set {α : Type} (a : Array2D α) (x y p q : Nat) (v : α) :
    (a.set x y v).idx p q = a.idx p q := by
  unfold Array2D.idx; rw [Array2D.width_set]

theorem Array2D.data_set_of_lt {α : Type} (a : Array2D α) {x y : Nat} (v : α)
    (hx : x < a.width) (hy : y < a.height) :
    (a.set x y v).data = a.data.set (a.idx x y) v := by
  unfold Array2D.set; rw [if_pos ⟨hx, hy⟩]

theorem Array2D.set_of_not {α : Type} (a : Array2D α) {x y : Nat} (v : α)
    (h : ¬(x < a.width ∧ y < a.height)) : a.set x y v = a := by
  unfold Array2D.set; rw [if_neg h]

theorem Array2D.mul_le_length {α : Type} (a : Array2D α) :
    a.width * a.height ≤ a.data.length := by
  have h := Nat.div_mul_le_self a.data.length a.width
  unfold Array2D.height
  calc a.width * (a.data.length / a.width) = a.data.length / a.width * a.width := Nat.mul_comm _ _
  _ ≤ a.data.length := h

theorem Array2D.idx_lt_length {α : Type} (a : Array2D α) {x y : Nat}
    (hx : x < a.width) (hy : y < a.height) : a.idx x y < a.data.length := by
  have h1 : a.width * (y + 1) ≤ a.width * a.height := Nat.mul_le_mul_left _ hy
  have h2 : a.width * a.height ≤ a.data.length := a.mul_le_length
  have h3 : a.width * (y + 1) = a.width * y + a.width := by ring
  unfold Array2D.idx
  omega

theorem Array2D.idx_inj {α : Type} (a : Array2D α) {x y x' y' : Nat}
    (hx : x < a.width) (hx' : x' < a.width) (h : a.idx x y = a.idx x' y') :
    x = x' ∧ y = y' := by
  have hw : 0 < a.width := Nat.lt_of_le_of_lt (Nat.zero_le x) hx
  unfold Array2D.idx at h
  have hxx : x = x' := by
    have h1 := congrArg (· % a.width) h
    simpa [Nat.add_mul_mod_self_left, Nat.mod_eq_of_lt hx, Nat.mod_eq_of_lt hx'] using h1
  subst hxx
  refine ⟨rfl, ?_⟩
  have h2 : a.width * y = a.width * y' := by omega
  exact Nat.eq_of_mul_eq_mul_left hw h2

theorem Array2D.get?_eq {α : Type} (a : Array2D α) (p q : Nat) :
    a.get? p q = if p < a.width ∧ q < a.height then a.data.get? (a.idx p q) else none :=
  rfl

theorem Array2D.get?_set {α : Type} (a : Array2D α) (x y p q : Nat) (v : α) :
    (a.set x y v).get? p q =
      if p = x ∧ q = y ∧ x < a.width ∧ y < a.height then some v else a.get? p q := by
  by_cases hin : x < a.width ∧ y < a.height
  · by_cases hpq : p = x ∧ q = y
    · obtain ⟨rfl, rfl⟩ := hpq
      rw [if_pos ⟨rfl, rfl, hin⟩, Array2D.get?_eq, Array2D.width_set, Array2D.height_set,
        Array2D.idx_set, Array2D.data_set_of_lt a v hin.1 hin.2, if_pos hin]
      exact List.get?_set_eq_of_lt _ (a.idx_lt_length hin.1 hin.2)
    · rw [if_neg (by tauto)]
      rw [Array2D.get?_eq, Array2D.get?_eq, Array2D.width_set, Array2D.height_set,
        Array2D.idx_set, Array2D.data_set_of_lt a v hin.1 hin.2]
      by_cases hp : p < a.width ∧ q < a.height
      · rw [if_pos hp, if_pos hp]
        apply List.get?_set_ne
        intro heq
        have hcon := a.idx_inj hin.1 hp.1 heq
        exact hpq ⟨hcon.1.symm, hcon.2.symm⟩
      · rw [if_neg hp, if_neg hp]
  · rw [Array2D.set_of_not a v hin, if_neg (by tauto)]

theorem Array2D.get_eq_getD_get? {α : Type} [Inhabited α] (a : Array2D α) (p q : Nat) :
    a.get p q = (a.get? p q).getD default := by
  unfold Array2D.get Array2D.get?
  by_cases h : p < a.width ∧ q < a.height
  · rw [if_pos h, if_pos h, List.getD_eq_getD_get?]
  · rw [if_neg h, if_neg h]; rfl

theorem Array2D.get_set {α : Type} [Inhabited α] (a : Array2D α) (x y p q : Nat) (v : α) :
    (a.set x y v).get p q =
      if p = x ∧ q = y ∧ x < a.width ∧ y < a.height then v else a.get p q := by
  rw [Array2D.get_eq_getD_get?, Array2D.get?_set]
  by_cases h : p = x ∧ q = y ∧ x < a.width ∧ y < a.height
  · rw [if_pos h, if_pos h]; rfl
  · rw [if_neg h, if_neg h, Array2D.get_eq_getD_get?]

@[simp] theorem Array2D.width_new {α : Type} [Inhabited α] (w h : Nat) :
    (Array2D.new α w h).width = w := rfl

theorem Array2D.height_new {α : Type} [Inhabited α] {w : Nat} (h : Nat) (hw : 0 < w) :
    (Array2D.new α w h).height = h := by
  unfold Array2D.new Array2D.height
  simp [Nat.mul_div_cancel_left h hw]

@[simp] theorem Array2D.get_new {α : Type} [Inhabited α] (w h x y : Nat) :
    (Array2D.new α w h).get x y = default := by
  unfold Array2D.get
  split
  · rw [List.getD_eq_getD_get?]
    rcases hg : (Array2D.new α w h).data.get? ((Array2D.new α w h).idx x y) with _ | v
    · rfl
    · have hv : v ∈ (Array2D.new α w h).data := List.get?_mem hg
      have : v = default := List.eq_of_mem_replicate hv
      simp [this]
  · rfl

@[simp] theorem Array2D.width_from_array {α : Type} (w : Nat) (d : List α) :
    (Array2D.from_array w d).width = w := rfl

@[simp] theorem Array2D.data_from_array {α : Type} (w : Nat) (d : List α) :
    (Array2D.from_array w d).data = d := rfl

theorem life_layered_kernel_eq : life_layered_kernel = some lifeLK := by
  rfl

/-! ## Characterizations of the nested write loops -/

theorem Array2D.width_foldl {α β : Type} (l : List β) (g : Array2D α → β → Array2D α)
    (a : Array2D α) (hg : ∀ acc b, (g acc b).width = acc.width) :
    (l.foldl g a).width = a.width := by
  induction l generalizing a with
  | nil => rfl
  | cons x xs ih => rw [List.foldl_cons, ih, hg]

theorem Array2D.height_foldl {α β : Type} (l : List β) (g : Array2D α → β → Array2D α)
    (a : Array2D α) (hg : ∀ acc b, (g acc b).height = acc.height) :
    (l.foldl g a).height = a.height := by
  induction l generalizing a with
  | nil => rfl
  | cons x xs ih => rw [List.foldl_cons, ih, hg]

theorem colfold_width {α : Type} (a : Array2D α) (X : Nat) (py : Nat → Nat) (v : Nat → α)
    (n : Nat) :
    ((List.range n).foldl (fun acc y0 => acc.set X (py y0) (v y0)) a).width = a.width :=
  Array2D.width_foldl _ _ _ (fun acc b => Array2D.width_set acc X (py b) (v b))

theorem colfold_height {α : Type} (a : Array2D α) (X : Nat) (py : Nat → Nat) (v : Nat → α)
    (n : Nat) :
    ((List.range n).foldl (fun acc y0 => acc.set X (py y0) (v y0)) a).height = a.height :=
  Array2D.height_foldl _ _ _ (fun acc b => Array2D.height_set acc X (py b) (v b))

theorem colfold_get?_written {α : Type} (a : Array2D α) (X : Nat) (py : Nat → Nat)
    (v : Nat → α) (hpy : ∀ y1 y2, py y1 = py y2 → y1 = y2) {n y : Nat} (hy : y < n) :
    ((List.range n).foldl (fun acc y0 => acc.set X (py y0) (v y0)) a).get? X (py y) =
      if X < a.width ∧ py y < a.height then some (v y) else none := by
  induction n with
  | zero => omega
  | succ n ih =>
    rw [List.range_succ, List.foldl_append, List.foldl_cons, List.foldl_nil, Array2D.get?_set]
    have hwf := colfold_width a X py v n
    have hhf := colfold_height a X py v n
    by_cases hyn : y = n
    · subst hyn
      by_cases hb : X < a.width ∧ py y < a.height
      · rw [if_pos (by exact ⟨rfl, rfl, hwf ▸ hb.1, hhf ▸ hb.2⟩), if_pos hb]
      · rw [if_neg (by rw [hwf, hhf]; tauto), if_neg hb, Array2D.get?_eq,
          if_neg (by rw [hwf, hhf]; tauto)]
    · have hne : py y ≠ py n := fun hc => hyn (hpy _ _ hc)
      rw [if_neg (by tauto), ih (by omega)]

theorem colfold_get?_untouched {α : Type} (a : Array2D α) (X : Nat) (py : Nat → Nat)
    (v : Nat → α) {n p q : Nat} (h : p ≠ X ∨ ∀ y < n, py y ≠ q) :
    ((List.range n).foldl (fun acc y0 => acc.set X (py y0) (v y0)) a).get? p q =
      a.get? p q := by
  induction n with
  | zero => rfl
  | succ n ih =>
    rw [List.range_succ, List.foldl_append, List.foldl_cons, List.foldl_nil, Array2D.get?_set]
    have hcond : ¬(p = X ∧ q = py n ∧
        X < ((List.range n).foldl (fun acc y0 => acc.set X (py y0) (v y0)) a).width ∧
        py n < ((List.range n).foldl (fun acc y0 => acc.set X (py y0) (v y0)) a).height) := by
      rcases h with h | h
      · tauto
      · have := h n (by omega)
        tauto
    rw [if_neg hcond]
    apply ih
    rcases h with h | h
    · exact Or.inl h
    · exact Or.inr (fun y hy => h y (by omega))

theorem gridfold_width {α : Type} (a : Array2D α) (px py : Nat → Nat) (v : Nat → Nat → α)
    (m n : Nat) :
    ((List.range m).foldl (fun acc x0 =>
        (List.range n).foldl (fun acc2 y0 => acc2.set (px x0) (py y0) (v x0 y0)) acc) a).width =
      a.width :=
  Array2D.width_foldl _ _ _ (fun acc b => colfold_width acc (px b) py (v b) n)

theorem gridfold_height {α : Type} (a : Array2D α) (px py : Nat → Nat) (v : Nat → Nat → α)
    (m n : Nat) :
    ((List.range m).foldl (fun acc x0 =>
        (List.range n).foldl (fun acc2 y0 => acc2.set (px x0) (py y0) (v x0 y0)) acc) a).height =
      a.height :=
  Array2D.height_foldl _ _ _ (fun acc b => colfold_height acc (px b) py (v b) n)

theorem gridfold_get?_written {α : Type} (a : Array2D α) (px py : Nat → Nat)
    (v : Nat → Nat → α) (hpx : ∀ x1 x2, px x1 = px x2 → x1 = x2)
    (hpy : ∀ y1 y2, py y1 = py y2 → y1 = y2) {m n x y : Nat} (hx : x < m) (hy : y < n) :
    ((List.range m).foldl (fun acc x0 =>
        (List.range n).foldl (fun acc2 y0 => acc2.set (px x0) (py y0) (v x0 y0)) acc) a).get?
        (px x) (py y) =
      if px x < a.width ∧ py y < a.height then some (v x y) else none := by
  induction m with
  | zero => omega
  | succ m ih =>
    rw [List.range_succ, List.foldl_append, List.foldl_cons, List.foldl_nil]
    have hwf := gridfold_width a px py v m n
    have hhf := gridfold_height a px py v m n
    by_cases hxm : x = m
    · subst hxm
      rw [colfold_get?_written _ _ _ _ hpy hy, hwf, hhf]
    · have hne : px x ≠ px m := fun hc => hxm (hpx _ _ hc)
      rw [colfold_get?_untouched _ _ _ _ (Or.inl hne), ih (by omega)]

theorem gridfold_get?_untouched {α : Type} (a : Array2D α) (px py : Nat → Nat)
    (v : Nat → Nat → α) {m n p q : Nat}
    (h : (∀ x < m, px x ≠ p) ∨ (∀ y < n, py y ≠ q)) :
    ((List.range m).foldl (fun acc x0 =>
        (List.range n).foldl (fun acc2 y0 => acc2.set (px x0) (py y0) (v x0 y0)) acc) a).get?
        p q =
      a.get? p q := by
  induction m with
  | zero => rfl
  | succ m ih =>
    rw [List.range_succ, List.foldl_append, List.foldl_cons, List.foldl_nil]
    have hlast : ((List.range m).foldl (fun acc x0 =>
        (List.range n).foldl (fun acc2 y0 => acc2.set (px x0) (py y0) (v x0 y0)) acc) a).get?
        p q = a.get? p q := by
      apply ih
      rcases h with h | h
      · exact Or.inl (fun x hx => h x (by omega))
      · exact Or.inr h
    rw [← hlast]
    apply colfold_get?_untouched
    rcases h with h | h
    · exact Or.inl (fun hc => h m (by omega) hc.symm)
    · exact Or.inr h

@[simp] theorem copyInto_width {α : Type} (w : Nat) (f : Nat → Nat → α) (i j : Nat)
    (acc : Array2D α) : (copyInto w f i j acc).width = acc.width :=
  gridfold_width acc (fun t => t + i * w) (fun t => t + j * w) f w w

@[simp] theorem copyInto_height {α : Type} (w : Nat) (f : Nat → Nat → α) (i j : Nat)
    (acc : Array2D α) : (copyInto w f i j acc).height = acc.height :=
  gridfold_height acc (fun t => t + i * w) (fun t => t + j * w) f w w

theorem copyInto_get?_written {α : Type} (w : Nat) (f : Nat → Nat → α) (i j : Nat)
    (acc : Array2D α) {x y : Nat} (hx : x < w) (hy : y < w) :
    (copyInto w f i j acc).get? (x + i * w) (y + j * w) =
      if x + i * w < acc.width ∧ y + j * w < acc.height then some (f x y) else none :=
  gridfold_get?_written acc (fun t => t + i * w) (fun t => t + j * w) f
    (fun _ _ h => Nat.add_right_cancel h) (fun _ _ h => Nat.add_right_cancel h) hx hy

theorem copyInto_get?_untouched {α : Type} (w : Nat) (f : Nat → Nat → α) (i j : Nat)
    (acc : Array2D α) {p q : Nat}
    (h : (∀ t < w, t + i * w ≠ p) ∨ (∀ t < w, t + j * w ≠ q)) :
    (copyInto w f i j acc).get? p q = acc.get? p q :=
  gridfold_get?_untouched acc (fun t => t + i * w) (fun t => t + j * w) f h

theorem LayeredKernel.buf_get? (w : Nat) (bs : Blocks4) (hw : 0 < w) {p q : Nat}
    (hp : p < w * 2) (hq : q < w * 2) :
    (LayeredKernel.buf w bs).get? p q = some (specBuf w bs p q) := by
  have hbh : (Array2D.new Bool (w * 2) (w * 2)).height = w * 2 :=
    Array2D.height_new _ (by omega)
  unfold LayeredKernel.buf
  simp only [show List.range 2 = [0, 1] from rfl, List.foldl_cons, List.foldl_nil]
  by_cases hpw : p < w
  · by_cases hqw : q < w
    · -- NW quadrant: written by the (i, j) = (0, 0) copy
      rw [copyInto_get?_untouched _ _ _ _ _ (Or.inl fun t ht => by omega),
        copyInto_get?_untouched _ _ _ _ _ (Or.inl fun t ht => by omega),
        copyInto_get?_untouched _ _ _ _ _ (Or.inr fun t ht => by omega)]
      have h := copyInto_get?_written w
        (fun x y => (bs.blk (0 + 2 * 0)).get x y) 0 0 (Array2D.new Bool (w * 2) (w * 2))
        hpw hqw
      have hp0 : p + 0 * w = p := by omega
      have hq0 : q + 0 * w = q := by omega
      rw [hp0, hq0] at h
      rw [h]
      simp [specBuf, hpw, hqw, hbh, hp, hq, Blocks4.blk]
    · -- SW quadrant: q ≥ w, written by the (i, j) = (0, 1) copy
      rw [copyInto_get?_untouched _ _ _ _ _ (Or.inl fun t ht => by omega),
        copyInto_get?_untouched _ _ _ _ _ (Or.inl fun t ht => by omega)]
      have h := copyInto_get?_written w
        (fun x y => (bs.blk (0 + 2 * 1)).get x y) 0 1
        (copyInto w (fun x y => (bs.blk (0 + 2 * 0)).get x y) 0 0
          (Array2D.new Bool (w * 2) (w * 2)))
        (x := p) (y := q - w) hpw (by omega)
      have hp0 : p + 0 * w = p := by omega
      have hq1 : q - w + 1 * w = q := by omega
      rw [hp0, hq1] at h
      rw [h]
      simp [specBuf, hpw, hqw, hbh, hp, hq, Blocks4.blk]
  · by_cases hqw : q < w
    · -- NE quadrant: p ≥ w, written by the (i, j) = (1, 0) copy
      rw [copyInto_get?_untouched _ _ _ _ _ (Or.inr fun t ht => by omega)]
      have h := copyInto_get?_written w
        (fun x y => (bs.blk (1 + 2 * 0)).get x y) 1 0
        (copyInto w (fun x y => (bs.blk (0 + 2 * 1)).get x y) 0 1
          (copyInto w (fun x y => (bs.blk (0 + 2 * 0)).get x y) 0 0
          (Array2D.new Bool (w * 2) (w * 2))))
        (x := p - w) (y := q) (by omega) hqw
      have hp1 : p - w + 1 * w = p := by omega
      have hq0 : q + 0 * w = q := by omega
      rw [hp1, hq0] at h
      rw [h]
      simp [specBuf, hpw, hqw, hbh, hp, hq, Blocks4.blk]
    · -- SE quadrant: written by the (i, j) = (1, 1) copy
      have h := copyInto_get?_written w
        (fun x y => (bs.blk (1 + 2 * 1)).get x y) 1 1
        (copyInto w (fun x y => (bs.blk (1 + 2 * 0)).get x y) 1 0
          (copyInto w (fun x y => (bs.blk (0 + 2 * 1)).get x y) 0 1
          (copyInto w (fun x y => (bs.blk (0 + 2 * 0)).get x y) 0 0
          (Array2D.new Bool (w * 2) (w * 2)))))
        (x := p - w) (y := q - w) (by omega) (by omega)
      have hp1 : p - w + 1 * w = p := by omega
      have hq1 : q - w + 1 * w = q := by omega
      rw [hp1, hq1] at h
      rw [h]
      simp [specBuf, hpw, hqw, hbh, hp, hq, Blocks4.blk]

/-! ## Characterization of the output list and the counts -/

theorem foldl_append_singleton {β γ : Type} (l : List β) (f : β → γ) (acc : List γ) :
    l.foldl (fun a x => a ++ [f x]) acc = acc ++ l.map f := by
  induction l generalizing acc with
  | nil => simp
  | cons x xs ih => simp [ih]

theorem outfold_succ {γ : Type} (w m : Nat) (cell : Nat → Nat → γ) :
    (List.range (m + 1)).foldl
        (fun acc j => (List.range w).foldl (fun acc2 i => acc2 ++ [cell i j]) acc) [] =
      ((List.range m).foldl
        (fun acc j => (List.range w).foldl (fun acc2 i => acc2 ++ [cell i j]) acc) []) ++
        (List.range w).map (fun i => cell i m) := by
  rw [List.range_succ, List.foldl_append, List.foldl_cons, List.foldl_nil,
    foldl_append_singleton]

theorem outfold_length {γ : Type} (w m : Nat) (cell : Nat → Nat → γ) :
    ((List.range m).foldl
      (fun acc j => (List.range w).foldl (fun acc2 i => acc2 ++ [cell i j]) acc) []).length =
      w * m := by
  induction m with
  | zero => rfl
  | succ m ih =>
    rw [outfold_succ, List.length_append, ih, List.length_map, List.length_range]
    ring

theorem map_range_getD {γ : Type} (w i : Nat) (f : Nat → γ) (d : γ) (hi : i < w) :
    ((List.range w).map f).getD i d = f i := by
  rw [List.getD_eq_getD_get?, List.get?_map, List.get?_range hi]
  rfl

theorem outfold_getD {γ : Type} (w : Nat) (cell : Nat → Nat → γ) (d : γ) {m i j : Nat}
    (hi : i < w) (hj : j < m) :
    ((List.range m).foldl
      (fun acc j => (List.range w).foldl (fun acc2 i => acc2 ++ [cell i j]) acc) []).getD
      (i + w * j) d = cell i j := by
  induction m with
  | zero => omega
  | succ m ih =>
    rw [outfold_succ]
    by_cases hjm : j = m
    · subst hjm
      rw [List.getD_append_right _ _ _ _ (by rw [outfold_length]; omega), outfold_length]
      have : i + w * j - w * j = i := by omega
      rw [this, map_range_getD _ _ _ _ hi]
    · have hmul : w * (j + 1) ≤ w * m := Nat.mul_le_mul_left _ (by omega)
      have hlt : i + w * j < w * m := by
        have : w * (j + 1) = w * j + w := by ring
        omega
      rw [List.getD_append _ _ _ _ (by rw [outfold_length]; omega), ih (by omega)]

theorem foldl_condcount_mod (P : Nat → Bool) (n a : Nat) (ha : a < 65536) :
    (List.range n).foldl (fun acc k => if P k then (acc + 1) % 65536 else acc) a =
      (a + ((Finset.range n).filter (fun k => P k = true)).card) % 65536 := by
  induction n with
  | zero => simp [Nat.mod_eq_of_lt ha]
  | succ n ih =>
    rw [List.range_succ, List.foldl_append, List.foldl_cons, List.foldl_nil,
      Finset.range_succ, Finset.filter_insert]
    by_cases h : P n
    · rw [if_pos h, if_pos (by simp [h]), Finset.card_insert_of_not_mem (by simp), ih,
        Nat.mod_add_mod, Nat.add_assoc]
    · rw [if_neg (by simp [h]), if_neg (by simp [h]), ih]

theorem layerCount_mod_sum (layer buf : Array2D Bool) (i j : Nat) :
    LayeredKernel.layerCount layer buf i j =
      (∑ y ∈ Finset.range layer.height,
        ((Finset.range layer.width).filter
          (fun x => (layer.get x y && buf.get (i + x) (j + y)) = true)).card) % 65536 := by
  unfold LayeredKernel.layerCount
  have main : ∀ n : Nat,
      (List.range n).foldl (fun acc y =>
        (List.range layer.width).foldl (fun acc2 x =>
          if layer.get x y && buf.get (i + x) (j + y) then (acc2 + 1) % 65536 else acc2)
          acc) 0 =
      (∑ y ∈ Finset.range n,
        ((Finset.range layer.width).filter
          (fun x => (layer.get x y && buf.get (i + x) (j + y)) = true)).card) % 65536 := by
    intro n
    induction n with
    | zero => simp
    | succ n ih =>
      rw [List.range_succ, List.foldl_append, List.foldl_cons, List.foldl_nil, ih,
        foldl_condcount_mod _ _ _ (Nat.mod_lt _ (by omega)), Finset.sum_range_succ,
        Nat.mod_add_mod]
  exact main layer.height

theorem specLayerCount_eq_sum_rows (layer buf : Array2D Bool) (bufF : Nat → Nat → Bool)
    (i j : Nat)
    (hin : ∀ x y, x < layer.width → y < layer.height →
      buf.get (i + x) (j + y) = bufF (i + x) (j + y)) :
    specLayerCount layer bufF i j =
      ∑ y ∈ Finset.range layer.height,
        ((Finset.range layer.width).filter
          (fun x => (layer.get x y && buf.get (i + x) (j + y)) = true)).card := by
  unfold specLayerCount
  rw [Finset.card_filter, Finset.sum_product, Finset.sum_comm]
  apply Finset.sum_congr rfl
  intro y hy
  rw [Finset.card_filter]
  apply Finset.sum_congr rfl
  intro x hx
  have hx' : x < layer.width := Finset.mem_range.mp hx
  have hy' : y < layer.height := Finset.mem_range.mp hy
  rw [hin x y hx' hy']
  by_cases hc : layer.get x y = true ∧ bufF (i + x) (j + y) = true
  · rw [if_pos hc, if_pos (by simp [hc.1, hc.2])]
  · rw [if_neg hc, if_neg (by
      intro hb
      rcases Bool.and_eq_true _ _ |>.mp hb with ⟨h1, h2⟩
      exact hc ⟨h1, h2⟩)]

theorem layerCount_eq_spec_mod (layer buf : Array2D Bool) (bufF : Nat → Nat → Bool) (i j : Nat)
    (hin : ∀ x y, x < layer.width → y < layer.height →
      buf.get (i + x) (j + y) = bufF (i + x) (j + y)) :
    LayeredKernel.layerCount layer buf i j = specLayerCount layer bufF i j % 65536 := by
  rw [layerCount_mod_sum, specLayerCount_eq_sum_rows layer buf bufF i j hin]

theorem specLayerCount_le (layer : Array2D Bool) (bufF : Nat → Nat → Bool) (i j : Nat) :
    specLayerCount layer bufF i j ≤ layer.width * layer.height := by
  unfold specLayerCount
  refine le_trans (Finset.card_filter_le _ _) (le_of_eq ?_)
  rw [Finset.card_product, Finset.card_range, Finset.card_range]

theorem layerCount_eq_spec (layer buf : Array2D Bool) (bufF : Nat → Nat → Bool) (i j : Nat)
    (hin : ∀ x y, x < layer.width → y < layer.height →
      buf.get (i + x) (j + y) = bufF (i + x) (j + y))
    (hbound : specLayerCount layer bufF i j < 65536) :
    LayeredKernel.layerCount layer buf i j = specLayerCount layer bufF i j := by
  rw [layerCount_eq_spec_mod layer buf bufF i j hin, Nat.mod_eq_of_lt hbound]

/-! ## The layered kernel, pointwise -/

theorem LayeredKernel.buf_get (w : Nat) (bs : Blocks4) (hw : 0 < w) {p q : Nat}
    (hp : p < w * 2) (hq : q < w * 2) :
    (LayeredKernel.buf w bs).get p q = specBuf w bs p q := by
  rw [Array2D.get_eq_getD_get?, LayeredKernel.buf_get? w bs hw hp hq]
  rfl

theorem LayeredKernel.run_width (lk : LayeredKernel) (bs : Blocks4) :
    (lk.run bs).width = calc_block_width lk.block_order := rfl

theorem LayeredKernel.run_data_length (lk : LayeredKernel) (bs : Blocks4) :
    (lk.run bs).data.length =
      calc_block_width lk.block_order * calc_block_width lk.block_order :=
  outfold_length _ _ _

theorem LayeredKernel.run_height (lk : LayeredKernel) (bs : Blocks4) :
    (lk.run bs).height = calc_block_width lk.block_order := by
  have hw : 0 < calc_block_width lk.block_order := Nat.pos_pow_of_pos _ (by omega)
  unfold Array2D.height
  rw [LayeredKernel.run_data_length, LayeredKernel.run_width,
    Nat.mul_div_cancel_left _ hw]

theorem LayeredKernel.run_get (lk : LayeredKernel) (bs : Blocks4) {i j : Nat}
    (hi : i < calc_block_width lk.block_order) (hj : j < calc_block_width lk.block_order) :
    (lk.run bs).get i j =
      lk.cell (LayeredKernel.buf (calc_block_width lk.block_order) bs) i j := by
  unfold Array2D.get
  rw [if_pos (by rw [LayeredKernel.run_width, LayeredKernel.run_height]; exact ⟨hi, hj⟩)]
  have hidx : (lk.run bs).idx i j = i + calc_block_width lk.block_order * j := by
    unfold Array2D.idx
    rw [LayeredKernel.run_width]
  rw [hidx]
  exact outfold_getD _ _ _ hi hj

theorem List.headD_mem_of_ne_nil {γ : Type} {l : List γ} (d : γ) (h : l ≠ []) :
    l.headD d ∈ l := by
  cases l with
  | nil => exact absurd rfl h
  | cons x xs => exact List.mem_cons_self x xs

theorem LayeredKernel.cell_eq_spec (lk : LayeredKernel) (bs : Blocks4) (hv : lk.Valid)
    (hM : lk.maskWidth * lk.maskWidth < 65536)
    {i j : Nat} (hi : i < calc_block_width lk.block_order)
    (hj : j < calc_block_width lk.block_order) :
    lk.cell (LayeredKernel.buf (calc_block_width lk.block_order) bs) i j =
      lk.decider
        (specBuf (calc_block_width lk.block_order) bs
          (i + lk.maskWidth / 2) (j + lk.maskWidth / 2))
        (specCounts lk (specBuf (calc_block_width lk.block_order) bs) i j) := by
  obtain ⟨hne, hord, hMw, hlayers⟩ := hv
  have hu : 0 < 2 ^ (lk.block_order - 1) := Nat.pos_pow_of_pos _ (by omega)
  have hw2 : calc_block_width lk.block_order = 2 * 2 ^ (lk.block_order - 1) := by
    unfold calc_block_width
    conv_lhs => rw [show lk.block_order = (lk.block_order - 1) + 1 by omega]
    rw [pow_succ]
    ring
  have hM2 : lk.maskWidth / 2 = 2 ^ (lk.block_order - 1) := by omega
  have hl0 : lk.layers.headD default ∈ lk.layers := List.headD_mem_of_ne_nil _ hne
  have hl0w : (lk.layers.headD default).width = lk.maskWidth := (hlayers _ hl0).1
  have hl0h : (lk.layers.headD default).height = lk.maskWidth := (hlayers _ hl0).2.1
  unfold LayeredKernel.cell
  have hcenter :
      (LayeredKernel.buf (calc_block_width lk.block_order) bs).get
          ((lk.layers.headD default).width / 2 + i) ((lk.layers.headD default).height / 2 + j) =
        specBuf (calc_block_width lk.block_order) bs
          (i + lk.maskWidth / 2) (j + lk.maskWidth / 2) := by
    rw [hl0w, hl0h, Nat.add_comm (lk.maskWidth / 2) i, Nat.add_comm (lk.maskWidth / 2) j]
    exact LayeredKernel.buf_get _ _ (by omega) (by omega) (by omega)
  rw [hcenter]
  congr 1
  unfold specCounts
  apply List.map_congr_left
  intro layer hlay
  have hlw : layer.width = lk.maskWidth := (hlayers _ hlay).1
  have hlh : layer.height = lk.maskWidth := (hlayers _ hlay).2.1
  apply layerCount_eq_spec
  · intro x y hx hy
    rw [hlw] at hx
    rw [hlh] at hy
    exact LayeredKernel.buf_get _ _ (by omega) (by omega) (by omega)
  · refine lt_of_le_of_lt (specLayerCount_le layer _ i j) ?_
    rw [hlw, hlh]
    exact hM

/-! ## The overflowing kernel: `u16` wrap observable at mask width 257 -/

theorem Array2D.get_of_all_true {a : Array2D Bool} (h : ∀ c ∈ a.data, c = true)
    {x y : Nat} (hx : x < a.width) (hy : y < a.height) : a.get x y = true := by
  unfold Array2D.get
  rw [if_pos ⟨hx, hy⟩, List.getD_eq_getD_get?]
  rcases hg : a.data.get? (a.idx x y) with _ | v
  · exact absurd (a.idx_lt_length hx hy) (Nat.not_lt.mpr (List.get?_eq_none.mp hg))
  · simp [h v (List.get?_mem hg)]

theorem Array2D.height_eq {α : Type} (a : Array2D α) :
    a.height = a.data.length / a.width := rfl

theorem bigMask_data : bigMask.data = List.replicate (257 * 257) true := rfl

theorem bigMask_width : bigMask.width = 257 := rfl

theorem bigMask_length : bigMask.data.length = 257 * 257 :=
  Eq.trans (congrArg List.length bigMask_data) (List.length_replicate _ _)

theorem bigMask_height : bigMask.height = 257 := by
  rw [Array2D.height_eq, bigMask_length, bigMask_width,
    Nat.mul_div_cancel_left 257 (show (0:Nat) < 257 by omega)]

theorem blkT_data : blkT.data = List.replicate (256 * 256) true := rfl

theorem blkT_width : blkT.width = 256 := rfl

theorem blkT_length : blkT.data.length = 256 * 256 :=
  Eq.trans (congrArg List.length blkT_data) (List.length_replicate _ _)

theorem blkT_height : blkT.height = 256 := by
  rw [Array2D.height_eq, blkT_length, blkT_width,
    Nat.mul_div_cancel_left 256 (show (0:Nat) < 256 by omega)]

theorem blkT_get {u v : Nat} (hu : u < 256) (hv : v < 256) : blkT.get u v = true := by
  apply Array2D.get_of_all_true
  · intro c hc
    exact List.eq_of_mem_replicate hc
  · exact hu
  · rw [blkT_height]
    exact hv

theorem specBuf_bsT {x y : Nat} (hx : x < 512) (hy : y < 512) :
    specBuf 256 bsT x y = true := by
  unfold specBuf
  by_cases h1 : x < 256
  · by_cases h2 : y < 256
    · rw [if_pos h1, if_pos h2]
      exact blkT_get h1 h2
    · rw [if_pos h1, if_neg h2]
      exact blkT_get h1 (by omega)
  · by_cases h2 : y < 256
    · rw [if_neg h1, if_pos h2]
      exact blkT_get (by omega) h2
    · rw [if_neg h1, if_neg h2]
      exact blkT_get (by omega) (by omega)

set_option maxRecDepth 40000 in
theorem specLayerCount_bigMask :
    specLayerCount bigMask (specBuf 256 bsT) 0 0 = 66049 := by
  unfold specLayerCount
  have hall : ∀ p ∈ Finset.range bigMask.width ×ˢ Finset.range bigMask.height,
      bigMask.get p.1 p.2 = true ∧ specBuf 256 bsT (0 + p.1) (0 + p.2) = true := by
    intro p hp
    rcases Finset.mem_product.mp hp with ⟨hp1, hp2⟩
    have hx : p.1 < bigMask.width := Finset.mem_range.mp hp1
    have hy : p.2 < bigMask.height := Finset.mem_range.mp hp2
    have hx' : p.1 < 257 := hx
    have hy' : p.2 < 257 := by rw [bigMask_height] at hy; exact hy
    constructor
    · exact Array2D.get_of_all_true (fun c hc => List.eq_of_mem_replicate hc) hx hy
    · exact specBuf_bsT (by omega) (by omega)
  rw [Finset.filter_true_of_mem hall, Finset.card_product, Finset.card_range,
    Finset.card_range, bigMask_height, bigMask_width]

theorem bigLK_valid : bigLK.Valid := by
  unfold LayeredKernel.Valid
  refine ⟨List.cons_ne_nil _ _, by decide, by decide, ?_⟩
  intro layer hl
  have hl' : layer = bigMask := List.mem_singleton.mp hl
  subst hl'
  refine ⟨by decide, ?_, ?_⟩
  · rw [bigMask_height]
    decide
  · rw [bigMask_length]
    decide

theorem bsT_sized : bsT.Sized (calc_block_width bigLK.block_order) := by
  unfold Blocks4.Sized
  have h : blkT.width = calc_block_width bigLK.block_order ∧
      blkT.height = calc_block_width bigLK.block_order ∧
      blkT.data.length =
        calc_block_width bigLK.block_order * calc_block_width bigLK.block_order := by
    refine ⟨by decide, ?_, ?_⟩
    · rw [blkT_height]
      decide
    · rw [blkT_length]
      decide
  exact ⟨h, h, h, h⟩

theorem bigLK_count :
    LayeredKernel.layerCount bigMask
      (LayeredKernel.buf (calc_block_width bigLK.block_order) bsT) 0 0 = 513 := by
  rw [show calc_block_width bigLK.block_order = 256 from by decide]
  have hin : ∀ x y, x < bigMask.width → y < bigMask.height →
      (LayeredKernel.buf 256 bsT).get (0 + x) (0 + y) = specBuf 256 bsT (0 + x) (0 + y) := by
    intro x y hx hy
    rw [bigMask_height] at hy
    have hx' : x < 257 := hx
    exact LayeredKernel.buf_get 256 bsT (by omega) (by omega) (by omega)
  rw [layerCount_eq_spec_mod bigMask _ (specBuf 256 bsT) 0 0 hin, specLayerCount_bigMask]

theorem bigExec : bigLK.exec bsT = some (bigLK.run bsT, KernelResult.NewBlock) := by
  unfold LayeredKernel.exec
  rw [if_pos (show bsT.b0.width = calc_block_width bigLK.block_order from by decide)]

theorem bigRun_cell : (bigLK.run bsT).get 0 0 = false := by
  rw [LayeredKernel.run_get bigLK bsT (by decide) (by decide)]
  unfold LayeredKernel.cell
  rw [show bigLK.layers.map
      (fun layer => LayeredKernel.layerCount layer
        (LayeredKernel.buf (calc_block_width bigLK.block_order) bsT) 0 0) =
      [LayeredKernel.layerCount bigMask
        (LayeredKernel.buf (calc_block_width bigLK.block_order) bsT) 0 0] from rfl,
    bigLK_count]
  rfl

theorem bigSpec_cell :
    bigLK.decider
      (specBuf (calc_block_width bigLK.block_order) bsT (0 + bigLK.maskWidth / 2)
        (0 + bigLK.maskWidth / 2))
      (specCounts bigLK (specBuf (calc_block_width bigLK.block_order) bsT) 0 0) = true := by
  rw [show specCounts bigLK (specBuf (calc_block_width bigLK.block_order) bsT) 0 0 =
      [specLayerCount bigMask (specBuf (calc_block_width bigLK.block_order) bsT) 0 0]
      from rfl]
  rw [show calc_block_width bigLK.block_order = 256 from by decide]
  rw [specLayerCount_bigMask]
  rfl

/-! ## The hand-written Life kernel, pointwise -/

theorem Life.stage_get? (bs : Blocks4) {p q : Nat} (hp : p < 4) (hq : q < 4) :
    (Life.buf bs).get? p q = some (if specBuf 2 bs p q then 1 else 0) := by
  have hbh : (Array2D.new Nat 4 4).height = 4 := rfl
  unfold Life.buf
  simp only [show List.range 2 = [0, 1] from rfl, List.foldl_cons, List.foldl_nil]
  by_cases hpw : p < 2
  · by_cases hqw : q < 2
    · rw [copyInto_get?_untouched _ _ _ _ _ (Or.inl fun t ht => by omega),
        copyInto_get?_untouched _ _ _ _ _ (Or.inl fun t ht => by omega),
        copyInto_get?_untouched _ _ _ _ _ (Or.inr fun t ht => by omega)]
      have h := copyInto_get?_written 2
        (fun x y => if (bs.blk (0 + 2 * 0)).get x y then 1 else 0) 0 0 (Array2D.new Nat 4 4)
        hpw hqw
      have hp0 : p + 0 * 2 = p := by omega
      have hq0 : q + 0 * 2 = q := by omega
      rw [hp0, hq0] at h
      rw [h]
      simp [specBuf, hpw, hqw, hbh, hp, hq, Blocks4.blk]
    · rw [copyInto_get?_untouched _ _ _ _ _ (Or.inl fun t ht => by omega),
        copyInto_get?_untouched _ _ _ _ _ (Or.inl fun t ht => by omega)]
      have h := copyInto_get?_written 2
        (fun x y => if (bs.blk (0 + 2 * 1)).get x y then 1 else 0) 0 1
        (copyInto 2 (fun x y => if (bs.blk (0 + 2 * 0)).get x y then 1 else 0) 0 0
          (Array2D.new Nat 4 4))
        (x := p) (y := q - 2) hpw (by omega)
      have hp0 : p + 0 * 2 = p := by omega
      have hq1 : q - 2 + 1 * 2 = q := by omega
      rw [hp0, hq1] at h
      rw [h]
      simp [specBuf, hpw, hqw, hbh, hp, hq, Blocks4.blk]
  · by_cases hqw : q < 2
    · rw [copyInto_get?_untouched _ _ _ _ _ (Or.inr fun t ht => by omega)]
      have h := copyInto_get?_written 2
        (fun x y => if (bs.blk (1 + 2 * 0)).get x y then 1 else 0) 1 0
        (copyInto 2 (fun x y => if (bs.blk (0 + 2 * 1)).get x y then 1 else 0) 0 1
          (copyInto 2 (fun x y => if (bs.blk (0 + 2 * 0)).get x y then 1 else 0) 0 0
            (Array2D.new Nat 4 4)))
        (x := p - 2) (y := q) (by omega) hqw
      have hp1 : p - 2 + 1 * 2 = p := by omega
      have hq0 : q + 0 * 2 = q := by omega
      rw [hp1, hq0] at h
      rw [h]
      simp [specBuf, hpw, hqw, hbh, hp, hq, Blocks4.blk]
    · have h := copyInto_get?_written 2
        (fun x y => if (bs.blk (1 + 2 * 1)).get x y then 1 else 0) 1 1
        (copyInto 2 (fun x y => if (bs.blk (1 + 2 * 0)).get x y then 1 else 0) 1 0
          (copyInto 2 (fun x y => if (bs.blk (0 + 2 * 1)).get x y then 1 else 0) 0 1
            (copyInto 2 (fun x y => if (bs.blk (0 + 2 * 0)).get x y then 1 else 0) 0 0
              (Array2D.new Nat 4 4))))
        (x := p - 2) (y := q - 2) (by omega) (by omega)
      have hp1 : p - 2 + 1 * 2 = p := by omega
      have hq1 : q - 2 + 1 * 2 = q := by omega
      rw [hp1, hq1] at h
      rw [h]
      simp [specBuf, hpw, hqw, hbh, hp, hq, Blocks4.blk]

theorem Life.stage_get (bs : Blocks4) {p q : Nat} (hp : p < 4) (hq : q < 4) :
    (Life.buf bs).get p q = if specBuf 2 bs p q then 1 else 0 := by
  rw [Array2D.get_eq_getD_get?, Life.stage_get? bs hp hq]
  rfl

theorem specLayerCount_lifeRing (F : Nat → Nat → Bool) (i j : Nat) :
    specLayerCount lifeRing F i j =
      (((((((if F (i + 0) (j + 0) then 1 else 0) + (if F (i + 0) (j + 1) then 1 else 0)) +
        (if F (i + 0) (j + 2) then 1 else 0)) + (if F (i + 1) (j + 0) then 1 else 0)) +
        (if F (i + 1) (j + 2) then 1 else 0)) + (if F (i + 2) (j + 0) then 1 else 0)) +
        (if F (i + 2) (j + 1) then 1 else 0)) + (if F (i + 2) (j + 2) then 1 else 0) := by
  unfold specLayerCount
  rw [Finset.card_filter, show lifeRing.width = 3 from rfl, show lifeRing.height = 3 from rfl,
    Finset.sum_product]
  rw [Finset.sum_range_succ, Finset.sum_range_succ, Finset.sum_range_succ,
    Finset.sum_range_zero]
  rw [Finset.sum_range_succ, Finset.sum_range_succ, Finset.sum_range_succ,
    Finset.sum_range_zero]
  rw [Finset.sum_range_succ, Finset.sum_range_succ, Finset.sum_range_succ,
    Finset.sum_range_zero]
  rw [Finset.sum_range_succ, Finset.sum_range_succ, Finset.sum_range_succ,
    Finset.sum_range_zero]
  have hr00 : lifeRing.get 0 0 = true := by decide
  have hr01 : lifeRing.get 0 1 = true := by decide
  have hr02 : lifeRing.get 0 2 = true := by decide
  have hr10 : lifeRing.get 1 0 = true := by decide
  have hr11 : lifeRing.get 1 1 = false := by decide
  have hr12 : lifeRing.get 1 2 = true := by decide
  have hr20 : lifeRing.get 2 0 = true := by decide
  have hr21 : lifeRing.get 2 1 = true := by decide
  have hr22 : lifeRing.get 2 2 = true := by decide
  simp only [hr00, hr01, hr02, hr10, hr11, hr12, hr20, hr21, hr22, true_and,
    Bool.false_eq_true, false_and, if_false]
  simp only [Nat.zero_add]
  by_cases h00 : F (i + 0) (j + 0) = true <;>
    by_cases h01 : F (i + 0) (j + 1) = true <;>
      simp [h00, h01]
  all_goals ring

theorem life_scan_eq (B : Array2D Nat) (ox oy : Nat) :
    (List.range 3).foldl (fun acc i =>
      (List.range 3).foldl (fun acc2 j =>
        if (i, j) ≠ (1, 1) then
          (acc2.1 + B.get (i + ox) (j + oy), acc2.2)
        else (acc2.1, B.get (i + ox) (j + oy))) acc) ((0 : Nat), (0 : Nat)) =
      ((((((((0 + B.get (0 + ox) (0 + oy)) + B.get (0 + ox) (1 + oy)) +
        B.get (0 + ox) (2 + oy)) + B.get (1 + ox) (0 + oy)) +
        B.get (1 + ox) (2 + oy)) + B.get (2 + ox) (0 + oy)) +
        B.get (2 + ox) (1 + oy)) + B.get (2 + ox) (2 + oy),
        B.get (1 + ox) (1 + oy)) := rfl

theorem Life.cell_spec (bs : Blocks4) {ox oy : Nat} (hox : ox < 2) (hoy : oy < 2) :
    Life.cell (Life.buf bs) ox oy =
      lifeDecider (specBuf 2 bs (ox + 1) (oy + 1))
        [specLayerCount lifeRing (specBuf 2 bs) ox oy] := by
  unfold Life.cell
  rw [life_scan_eq]
  rw [Life.stage_get bs (by omega) (by omega), Life.stage_get bs (by omega) (by omega),
    Life.stage_get bs (by omega) (by omega), Life.stage_get bs (by omega) (by omega),
    Life.stage_get bs (by omega) (by omega), Life.stage_get bs (by omega) (by omega),
    Life.stage_get bs (by omega) (by omega), Life.stage_get bs (by omega) (by omega),
    Life.stage_get bs (by omega) (by omega)]
  rw [specLayerCount_lifeRing]
  simp only [Nat.zero_add, Nat.add_zero]
  rw [show 1 + ox = ox + 1 from by omega, show 2 + ox = ox + 2 from by omega,
    show 1 + oy = oy + 1 from by omega, show 2 + oy = oy + 2 from by omega]
  cases hce : specBuf 2 bs (ox + 1) (oy + 1) with
  | false => simp [lifeDecider]
  | true => simp [lifeDecider]

theorem lifeLK_valid : lifeLK.Valid := by
  unfold LayeredKernel.Valid
  refine ⟨by decide, by decide, by decide, ?_⟩
  decide

theorem life_cells_agree (bs : Blocks4) {i j : Nat} (hi : i < 2) (hj : j < 2) :
    lifeLK.cell (LayeredKernel.buf (calc_block_width lifeLK.block_order) bs) i j =
      Life.cell (Life.buf bs) i j := by
  rw [Life.cell_spec bs hi hj,
    LayeredKernel.cell_eq_spec lifeLK bs lifeLK_valid (by decide) hi hj]
  rfl

/-! ## Association list lemmas -/

theorem lookupA_mem {κ β : Type} [DecidableEq κ] {l : List (κ × β)} {k : κ} {v : β}
    (h : lookupA l k = some v) : (k, v) ∈ l := by
  induction l with
  | nil => simp [lookupA] at h
  | cons p rest ih =>
    obtain ⟨k', v'⟩ := p
    unfold lookupA at h
    by_cases hk : k = k'
    · rw [if_pos hk] at h
      subst hk
      cases h
      exact List.mem_cons_self _ _
    · rw [if_neg hk] at h
      exact List.mem_cons_of_mem _ (ih h)

theorem lookupA_eq_some_of_nodup {κ β : Type} [DecidableEq κ] {l : List (κ × β)} {k : κ}
    {v : β} (hnd : (l.map Prod.fst).Nodup) (hm : (k, v) ∈ l) : lookupA l k = some v := by
  induction l with
  | nil => simp at hm
  | cons p rest ih =>
    obtain ⟨k', v'⟩ := p
    rw [List.map_cons, List.nodup_cons] at hnd
    rcases List.mem_cons.mp hm with h | h
    · cases h
      unfold lookupA
      rw [if_pos rfl]
    · unfold lookupA
      have hk : k ≠ k' := by
        intro hc
        subst hc
        exact hnd.1 (List.mem_map.mpr ⟨(k, v), h, rfl⟩)
      rw [if_neg hk]
      exact ih hnd.2 h

theorem lookupA_none_not_mem {κ β : Type} [DecidableEq κ] {l : List (κ × β)} {k : κ}
    (h : lookupA l k = none) : ∀ v, (k, v) ∉ l := by
  induction l with
  | nil => simp
  | cons p rest ih =>
    obtain ⟨k', v'⟩ := p
    unfold lookupA at h
    by_cases hk : k = k'
    · rw [if_pos hk] at h
      cases h
    · rw [if_neg hk] at h
      intro v hv
      rcases List.mem_cons.mp hv with hc | hc
      · cases hc
        exact hk rfl
      · exact ih h v hc

theorem lookupA_none_not_key {κ β : Type} [DecidableEq κ] {l : List (κ × β)} {k : κ}
    (h : lookupA l k = none) : k ∉ l.map Prod.fst := by
  intro hc
  rcases List.mem_map.mp hc with ⟨⟨k', v⟩, hmem, hfst⟩
  cases hfst
  exact lookupA_none_not_mem h v hmem

theorem assoc_nodup_unique {κ β : Type} [DecidableEq κ] {l : List (κ × β)} {k : κ}
    {v1 v2 : β} (hnd : (l.map Prod.fst).Nodup) (h1 : (k, v1) ∈ l) (h2 : (k, v2) ∈ l) :
    v1 = v2 := by
  have e1 := lookupA_eq_some_of_nodup hnd h1
  have e2 := lookupA_eq_some_of_nodup hnd h2
  rw [e1] at e2
  cases e2
  rfl

/-! ## Invariant preservation for the cache operations -/

theorem getId_spec (f : Blocks4 → Blk) (s : KernelCache) (b : Blk) (hInv : CacheInv f s) :
    CacheInv f (s.getId b).2 ∧
    ((s.getId b).1, b) ∈ (s.getId b).2.values ∧
    (b, (s.getId b).1) ∈ (s.getId b).2.cache ∧
    (∀ e, e ∈ s.values → e ∈ (s.getId b).2.values) ∧
    (s.getId b).2.solutions = s.solutions := by
  unfold KernelCache.getId
  cases hl : lookupA s.cache (summarize b 1) with
  | some i =>
    simp only
    have hmem : (b, i) ∈ s.cache := lookupA_mem hl
    exact ⟨hInv, hInv.cv _ hmem, hmem, fun e he => he, trivial⟩
  | none =>
    simp only
    have hkey : b ∉ s.cache.map Prod.fst := lookupA_none_not_key hl
    have hidxv : s.next_idx ∉ s.values.map Prod.fst := by
      intro hc
      rcases List.mem_map.mp hc with ⟨q, hmem, hfst⟩
      have hb := hInv.vbound _ hmem
      omega
    refine ⟨⟨?_, ?_, ?_, ?_, ?_, ?_, ?_⟩, ?_, ?_, ?_, ?_⟩
    · rw [List.map_cons, List.nodup_cons]
      exact ⟨hkey, hInv.cnodup⟩
    · rw [List.map_cons, List.nodup_cons]
      exact ⟨hidxv, hInv.vnodup⟩
    · intro p hp
      rcases List.mem_cons.mp hp with h | h
      · cases h
        exact List.mem_cons_self _ _
      · exact List.mem_cons_of_mem _ (hInv.cv _ h)
    · intro q hq
      rcases List.mem_cons.mp hq with h | h
      · cases h
        exact List.mem_cons_self _ _
      · exact List.mem_cons_of_mem _ (hInv.vc _ h)
    · intro p hp
      rcases List.mem_cons.mp hp with h | h
      · cases h
        show s.next_idx < s.next_idx + 1
        omega
      · have hb := hInv.cbound _ h
        show p.2 < s.next_idx + 1
        omega
    · intro q hq
      rcases List.mem_cons.mp hq with h | h
      · cases h
        show s.next_idx < s.next_idx + 1
        omega
      · have hb := hInv.vbound _ h
        show q.1 < s.next_idx + 1
        omega
    · intro e he
      obtain ⟨c0, c1, c2, c3, h0, h1, h2, h3, h4⟩ := hInv.sol e he
      exact ⟨c0, c1, c2, c3, List.mem_cons_of_mem _ h0, List.mem_cons_of_mem _ h1,
        List.mem_cons_of_mem _ h2, List.mem_cons_of_mem _ h3, List.mem_cons_of_mem _ h4⟩
    · exact List.mem_cons_self _ _
    · exact List.mem_cons_self _ _
    · intro e he
      exact List.mem_cons_of_mem _ he
    · trivial

theorem lruPromote_subset {l : List (CKey × Nat)} {k : CKey} {e : CKey × Nat}
    (h : e ∈ lruPromote l k) : e ∈ l := by
  unfold lruPromote at h
  cases hl : lookupA l k with
  | some v =>
    rw [hl] at h
    rcases List.mem_cons.mp h with hc | hc
    · cases hc
      exact lookupA_mem hl
    · exact (List.mem_filter.mp hc).1
  | none =>
    rw [hl] at h
    exact h

theorem lruPromote_lookup_self {l : List (CKey × Nat)} {k : CKey} {v : Nat}
    (h : lookupA l k = some v) : lookupA (lruPromote l k) k = some v := by
  unfold lruPromote
  rw [h]
  unfold lookupA
  rw [if_pos rfl]

theorem solutionIds_mem {sols : List (CKey × Nat)} {e : CKey × Nat} (h : e ∈ sols) :
    e.1.1 ∈ solutionIds sols ∧ e.1.2.1 ∈ solutionIds sols ∧ e.1.2.2.1 ∈ solutionIds sols ∧
      e.1.2.2.2 ∈ solutionIds sols ∧ e.2 ∈ solutionIds sols := by
  induction sols with
  | nil => simp at h
  | cons p rest ih =>
    unfold solutionIds
    rw [List.foldr_cons]
    rcases List.mem_cons.mp h with hc | hc
    · subst hc
      refine ⟨by simp, by simp, by simp, by simp, by simp⟩
    · have := ih hc
      unfold solutionIds at this
      refine ⟨by simp [this.1], by simp [this.2.1], by simp [this.2.2.1],
        by simp [this.2.2.2.1], by simp [this.2.2.2.2]⟩

theorem gc_values_keep {s : KernelCache} {i : Nat} {b : Blk}
    (hv : (i, b) ∈ s.values) (hlive : i ∈ solutionIds s.solutions) :
    (i, b) ∈ s.gc.values := by
  unfold KernelCache.gc
  exact List.mem_filter.mpr ⟨hv, by simpa using hlive⟩

theorem gc_inv (f : Blocks4 → Blk) (s : KernelCache) (hInv : CacheInv f s) :
    CacheInv f s.gc := by
  refine ⟨?_, ?_, ?_, ?_, ?_, ?_, ?_⟩
  · exact hInv.cnodup.sublist (List.Sublist.map _ (List.filter_sublist _))
  · exact hInv.vnodup.sublist (List.Sublist.map _ (List.filter_sublist _))
  · intro p hp
    have hm := List.mem_filter.mp hp
    exact List.mem_filter.mpr ⟨hInv.cv _ hm.1, by simpa using hm.2⟩
  · intro q hq
    have hm := List.mem_filter.mp hq
    exact List.mem_filter.mpr ⟨hInv.vc _ hm.1, by simpa using hm.2⟩
  · intro p hp
    exact hInv.cbound _ (List.mem_filter.mp hp).1
  · intro q hq
    exact hInv.vbound _ (List.mem_filter.mp hq).1
  · intro e he
    obtain ⟨c0, c1, c2, c3, h0, h1, h2, h3, h4⟩ := hInv.sol e he
    obtain ⟨l0, l1, l2, l3, l4⟩ := solutionIds_mem he
    exact ⟨c0, c1, c2, c3, gc_values_keep h0 l0, gc_values_keep h1 l1,
      gc_values_keep h2 l2, gc_values_keep h3 l3, gc_values_keep h4 l4⟩

theorem promote_state_inv (f : Blocks4 → Blk) (s : KernelCache) (k : CKey)
    (hInv : CacheInv f s) :
    CacheInv f { s with solutions := lruPromote s.solutions k, hits := s.hits + 1 } := by
  refine ⟨hInv.cnodup, hInv.vnodup, hInv.cv, hInv.vc, hInv.cbound, hInv.vbound, ?_⟩
  intro e he
  exact hInv.sol e (lruPromote_subset he)

theorem promote_only_inv (f : Blocks4 → Blk) (s : KernelCache) (k : CKey)
    (hInv : CacheInv f s) :
    CacheInv f { s with solutions := lruPromote s.solutions k } := by
  refine ⟨hInv.cnodup, hInv.vnodup, hInv.cv, hInv.vc, hInv.cbound, hInv.vbound, ?_⟩
  intro e he
  exact hInv.sol e (lruPromote_subset he)

theorem hitPhase_inv (f : Blocks4 → Blk) (s : KernelCache) (k : CKey)
    (hInv : CacheInv f s) : CacheInv f (s.hitPhase k) := by
  unfold KernelCache.hitPhase
  split
  · split
    · exact gc_inv f _ (promote_state_inv f s k hInv)
    · exact promote_state_inv f s k hInv
  · exact hInv

theorem hitPhase_lookup (s : KernelCache) (k : CKey) {i : Nat}
    (h : lookupA s.solutions k = some i) :
    lookupA (s.hitPhase k).solutions k = some i := by
  unfold KernelCache.hitPhase
  rw [h]
  simp only [Option.isSome_some, if_true]
  split
  · exact lruPromote_lookup_self h
  · exact lruPromote_lookup_self h

theorem hitPhase_of_none (s : KernelCache) (k : CKey)
    (h : lookupA s.solutions k = none) : s.hitPhase k = s := by
  unfold KernelCache.hitPhase
  rw [h]
  simp

theorem hitPhase_values_keep (s : KernelCache) (k : CKey) {i0 isol : Nat} {b : Blk}
    (hl : lookupA s.solutions k = some isol) (hv : (i0, b) ∈ s.values)
    (hid : i0 = k.1 ∨ i0 = k.2.1 ∨ i0 = k.2.2.1 ∨ i0 = k.2.2.2 ∨ i0 = isol) :
    (i0, b) ∈ (s.hitPhase k).values := by
  unfold KernelCache.hitPhase
  rw [hl]
  simp only [Option.isSome_some, if_true]
  split
  · have hmem : (k, isol) ∈ lruPromote s.solutions k := by
      unfold lruPromote
      rw [hl]
      exact List.mem_cons_self _ _
    have hids := solutionIds_mem hmem
    apply List.mem_filter.mpr
    refine ⟨hv, ?_⟩
    simp only [decide_eq_true_eq]
    rcases hid with h | h | h | h | h <;> subst h
    · exact hids.1
    · exact hids.2.1
    · exact hids.2.2.1
    · exact hids.2.2.2.1
    · exact hids.2.2.2.2
  · exact hv

theorem assign4_spec (f : Blocks4 → Blk) (bs : Blocks4) (s : KernelCache)
    (hInv : CacheInv f s) :
    CacheInv f (s.assign4 bs).2 ∧
    ((s.assign4 bs).1.1, bs.b0) ∈ (s.assign4 bs).2.values ∧
    ((s.assign4 bs).1.2.1, bs.b1) ∈ (s.assign4 bs).2.values ∧
    ((s.assign4 bs).1.2.2.1, bs.b2) ∈ (s.assign4 bs).2.values ∧
    ((s.assign4 bs).1.2.2.2, bs.b3) ∈ (s.assign4 bs).2.values ∧
    (s.assign4 bs).2.solutions = s.solutions := by
  have h0 := getId_spec f s bs.b0 hInv
  have h1 := getId_spec f (s.getId bs.b0).2 bs.b1 h0.1
  have h2 := getId_spec f ((s.getId bs.b0).2.getId bs.b1).2 bs.b2 h1.1
  have h3 := getId_spec f (((s.getId bs.b0).2.getId bs.b1).2.getId bs.b2).2 bs.b3 h2.1
  refine ⟨h3.1, ?_, ?_, ?_, h3.2.1, ?_⟩
  · exact h3.2.2.2.1 _ (h2.2.2.2.1 _ (h1.2.2.2.1 _ h0.2.1))
  · exact h3.2.2.2.1 _ (h2.2.2.2.1 _ h1.2.1)
  · exact h3.2.2.2.1 _ h2.2.1
  · exact h3.2.2.2.2.trans (h2.2.2.2.2.trans (h1.2.2.2.2.trans h0.2.2.2.2))

theorem finish_fst_hit (f : Blocks4 → Blk) (bs : Blocks4) (s : KernelCache) (k : CKey)
    (hInv : CacheInv f s) {i : Nat} (hl : lookupA s.solutions k = some i)
    (hb0 : (k.1, bs.b0) ∈ s.values) (hb1 : (k.2.1, bs.b1) ∈ s.values)
    (hb2 : (k.2.2.1, bs.b2) ∈ s.values) (hb3 : (k.2.2.2, bs.b3) ∈ s.values) :
    (KernelCache.finish f bs s k).1 = some (f bs) := by
  unfold KernelCache.finish
  rw [hl]
  obtain ⟨c0, c1, c2, c3, m0, m1, m2, m3, m4⟩ := hInv.sol (k, i) (lookupA_mem hl)
  have e0 : c0 = bs.b0 := assoc_nodup_unique hInv.vnodup m0 hb0
  have e1 : c1 = bs.b1 := assoc_nodup_unique hInv.vnodup m1 hb1
  have e2 : c2 = bs.b2 := assoc_nodup_unique hInv.vnodup m2 hb2
  have e3 : c3 = bs.b3 := assoc_nodup_unique hInv.vnodup m3 hb3
  subst e0 e1 e2 e3
  exact lookupA_eq_some_of_nodup hInv.vnodup m4

theorem finish_fst_miss (f : Blocks4 → Blk) (bs : Blocks4) (s : KernelCache) (k : CKey)
    (hInv : CacheInv f s) (hl : lookupA s.solutions k = none) :
    (KernelCache.finish f bs s k).1 = some (f bs) := by
  unfold KernelCache.finish
  rw [hl]
  have h5 := getId_spec f s (f bs) hInv
  exact lookupA_eq_some_of_nodup h5.1.vnodup h5.2.1

theorem finish_snd_inv_hit (f : Blocks4 → Blk) (bs : Blocks4) (s : KernelCache) (k : CKey)
    (hInv : CacheInv f s) {i : Nat} (hl : lookupA s.solutions k = some i) :
    CacheInv f (KernelCache.finish f bs s k).2 := by
  unfold KernelCache.finish
  rw [hl]
  exact promote_only_inv f s k hInv

theorem finish_snd_inv_miss (f : Blocks4 → Blk) (bs : Blocks4) (s : KernelCache) (k : CKey)
    (hInv : CacheInv f s) (hl : lookupA s.solutions k = none)
    (hb0 : (k.1, bs.b0) ∈ s.values) (hb1 : (k.2.1, bs.b1) ∈ s.values)
    (hb2 : (k.2.2.1, bs.b2) ∈ s.values) (hb3 : (k.2.2.2, bs.b3) ∈ s.values) :
    CacheInv f (KernelCache.finish f bs s k).2 := by
  unfold KernelCache.finish
  rw [hl]
  have h5 := getId_spec f s (f bs) hInv
  refine ⟨h5.1.cnodup, h5.1.vnodup, h5.1.cv, h5.1.vc, h5.1.cbound, h5.1.vbound, ?_⟩
  intro e he
  have he1 : e ∈ (if 8888 < ((k, (s.getId (f bs)).1) :: (s.getId (f bs)).2.solutions).length
      then ((k, (s.getId (f bs)).1) :: (s.getId (f bs)).2.solutions).dropLast
      else (k, (s.getId (f bs)).1) :: (s.getId (f bs)).2.solutions) := he
  have he2 : e ∈ (k, (s.getId (f bs)).1) :: (s.getId (f bs)).2.solutions := by
    by_cases hlen : 8888 < ((k, (s.getId (f bs)).1) :: (s.getId (f bs)).2.solutions).length
    · rw [if_pos hlen] at he1
      exact (List.dropLast_sublist _).subset he1
    · rw [if_neg hlen] at he1
      exact he1
  rcases List.mem_cons.mp he2 with hc | hc
  · subst hc
    refine ⟨bs.b0, bs.b1, bs.b2, bs.b3, ?_, ?_, ?_, ?_, ?_⟩
    · exact h5.2.2.2.1 _ hb0
    · exact h5.2.2.2.1 _ hb1
    · exact h5.2.2.2.1 _ hb2
    · exact h5.2.2.2.1 _ hb3
    · exact h5.2.1
  · exact h5.1.sol e hc

theorem init_inv (f : Blocks4 → Blk) : CacheInv f KernelCache.init := by
  refine ⟨?_, ?_, ?_, ?_, ?_, ?_, ?_⟩ <;> simp [KernelCache.init]

theorem exec_fst_correct (f : Blocks4 → Blk) (bs : Blocks4) (s : KernelCache)
    (hInv : CacheInv f s) : (KernelCache.exec f bs s).1 = some (f bs) := by
  obtain ⟨hinv4, hb0, hb1, hb2, hb3, hsols⟩ := assign4_spec f bs s hInv
  show (KernelCache.finish f bs ((s.assign4 bs).2.hitPhase (s.assign4 bs).1)
    (s.assign4 bs).1).1 = some (f bs)
  cases hl : lookupA (s.assign4 bs).2.solutions (s.assign4 bs).1 with
  | some i =>
    apply finish_fst_hit f bs _ _ (hitPhase_inv f _ _ hinv4) (hitPhase_lookup _ _ hl)
    · exact hitPhase_values_keep _ _ hl hb0 (by tauto)
    · exact hitPhase_values_keep _ _ hl hb1 (by tauto)
    · exact hitPhase_values_keep _ _ hl hb2 (by tauto)
    · exact hitPhase_values_keep _ _ hl hb3 (by tauto)
  | none =>
    rw [hitPhase_of_none _ _ hl]
    exact finish_fst_miss f bs _ _ hinv4 hl

theorem exec_snd_inv (f : Blocks4 → Blk) (bs : Blocks4) (s : KernelCache)
    (hInv : CacheInv f s) : CacheInv f (KernelCache.exec f bs s).2 := by
  obtain ⟨hinv4, hb0, hb1, hb2, hb3, hsols⟩ := assign4_spec f bs s hInv
  show CacheInv f (KernelCache.finish f bs ((s.assign4 bs).2.hitPhase (s.assign4 bs).1)
    (s.assign4 bs).1).2
  cases hl : lookupA (s.assign4 bs).2.solutions (s.assign4 bs).1 with
  | some i =>
    exact finish_snd_inv_hit f bs _ _ (hitPhase_inv f _ _ hinv4) (hitPhase_lookup _ _ hl)
  | none =>
    rw [hitPhase_of_none _ _ hl]
    exact finish_snd_inv_miss f bs _ _ hinv4 hl hb0 hb1 hb2 hb3

theorem reachable_inv (f : Blocks4 → Blk) (s : KernelCache)
    (h : KernelCache.Reachable f s) : CacheInv f s := by
  induction h with
  | init => exact init_inv f
  | step bs hr ih => exact exec_snd_inv f bs _ ih

theorem solutionIds_src {sols : List (CKey × Nat)} {i : Nat} (h : i ∈ solutionIds sols) :
    ∃ e ∈ sols, i = e.1.1 ∨ i = e.1.2.1 ∨ i = e.1.2.2.1 ∨ i = e.1.2.2.2 ∨ i = e.2 := by
  induction sols with
  | nil => simp [solutionIds] at h
  | cons p rest ih =>
    unfold solutionIds at h
    rw [List.foldr_cons] at h
    simp only [List.mem_cons] at h
    rcases h with h | h | h | h | h | h
    · exact ⟨p, List.mem_cons_self _ _, Or.inl h⟩
    · exact ⟨p, List.mem_cons_self _ _, Or.inr (Or.inl h)⟩
    · exact ⟨p, List.mem_cons_self _ _, Or.inr (Or.inr (Or.inl h))⟩
    · exact ⟨p, List.mem_cons_self _ _, Or.inr (Or.inr (Or.inr (Or.inl h)))⟩
    · exact ⟨p, List.mem_cons_self _ _, Or.inr (Or.inr (Or.inr (Or.inr h)))⟩
    · obtain ⟨e, hmem, hor⟩ := ih h
      exact ⟨e, List.mem_cons_of_mem _ hmem, hor⟩

theorem sol_ids_have_entries (f : Blocks4 → Blk) (s : KernelCache) (hInv : CacheInv f s)
    {i : Nat} (h : i ∈ solutionIds s.solutions) :
    (∃ b, (i, b) ∈ s.values) ∧ (∃ b, (b, i) ∈ s.cache) := by
  obtain ⟨e, hmem, hor⟩ := solutionIds_src h
  obtain ⟨c0, c1, c2, c3, m0, m1, m2, m3, m4⟩ := hInv.sol e hmem
  have hval : ∃ b, (i, b) ∈ s.values := by
    rcases hor with h | h | h | h | h <;> subst h
    · exact ⟨c0, m0⟩
    · exact ⟨c1, m1⟩
    · exact ⟨c2, m2⟩
    · exact ⟨c3, m3⟩
    · exact ⟨f ⟨c0, c1, c2, c3⟩, m4⟩
  obtain ⟨b, hb⟩ := hval
  exact ⟨⟨b, hb⟩, ⟨b, hInv.vc _ hb⟩⟩

theorem gc_exact (f : Blocks4 → Blk) (s : KernelCache) (hInv : CacheInv f s) (i : Nat) :
    ((∃ b, (i, b) ∈ s.gc.values) ↔ i ∈ solutionIds s.solutions) ∧
    ((∃ b, (b, i) ∈ s.gc.cache) ↔ i ∈ solutionIds s.solutions) := by
  constructor
  · constructor
    · rintro ⟨b, hb⟩
      have hm := List.mem_filter.mp hb
      simpa using hm.2
    · intro hlive
      obtain ⟨⟨b, hb⟩, _⟩ := sol_ids_have_entries f s hInv hlive
      exact ⟨b, gc_values_keep hb hlive⟩
  · constructor
    · rintro ⟨b, hb⟩
      have hm := List.mem_filter.mp hb
      simpa using hm.2
    · intro hlive
      obtain ⟨⟨b, hb⟩, _⟩ := sol_ids_have_entries f s hInv hlive
      refine ⟨b, ?_⟩
      have hc := hInv.vc _ hb
      exact List.mem_filter.mpr ⟨hc, by simpa using hlive⟩

/-! ## The step loop, pointwise -/

theorem DenseGrid.step_back (K : Blocks4 → Blk) (d : DenseGrid) :
    (DenseGrid.step K d).back = d.front := rfl

theorem DenseGrid.step_zero_borders (K : Blocks4 → Blk) (d : DenseGrid) :
    (DenseGrid.step K d).zero_borders = !d.zero_borders := rfl

theorem DenseGrid.step_order (K : Blocks4 → Blk) (d : DenseGrid) :
    (DenseGrid.step K d).order = d.order := rfl

theorem DenseGrid.step_front_width (K : Blocks4 → Blk) (d : DenseGrid) :
    (DenseGrid.step K d).front.width = d.back.width :=
  gridfold_width d.back (fun t => t) (fun t => t)
    (fun i j => K (DenseGrid.gather d.front d.zero_borders i j)) _ _

theorem DenseGrid.step_front_height (K : Blocks4 → Blk) (d : DenseGrid) :
    (DenseGrid.step K d).front.height = d.back.height :=
  gridfold_height d.back (fun t => t) (fun t => t)
    (fun i j => K (DenseGrid.gather d.front d.zero_borders i j)) _ _

theorem DenseGrid.step_front_get?_written (K : Blocks4 → Blk) (d : DenseGrid) {i j : Nat}
    (hi : i < d.front.width - 1) (hj : j < d.front.height - 1) :
    (DenseGrid.step K d).front.get? i j =
      if i < d.back.width ∧ j < d.back.height then
        some (K (DenseGrid.gather d.front d.zero_borders i j))
      else none :=
  gridfold_get?_written d.back (fun t => t) (fun t => t)
    (fun i j => K (DenseGrid.gather d.front d.zero_borders i j))
    (fun _ _ h => h) (fun _ _ h => h) hi hj

theorem DenseGrid.step_front_get?_untouched (K : Blocks4 → Blk) (d : DenseGrid) {i j : Nat}
    (h : d.front.width - 1 ≤ i ∨ d.front.height - 1 ≤ j) :
    (DenseGrid.step K d).front.get? i j = d.back.get? i j :=
  gridfold_get?_untouched d.back (fun t => t) (fun t => t)
    (fun i j => K (DenseGrid.gather d.front d.zero_borders i j))
    (by
      rcases h with h | h
      · exact Or.inl (fun x hx hc => (by omega : x ≠ i) hc)
      · exact Or.inr (fun y hy hc => (by omega : y ≠ j) hc))

theorem DenseGrid.step_dims {K : Blocks4 → Blk} {d : DenseGrid} {fw fh : Nat}
    (h : d.DimsEq fw fh) : (DenseGrid.step K d).DimsEq fw fh := by
  obtain ⟨h1, h2, h3, h4⟩ := h
  exact ⟨(DenseGrid.step_front_width K d).trans h3,
    (DenseGrid.step_front_height K d).trans h4, h1, h2⟩

theorem DenseGrid.stepN_dims {K : Blocks4 → Blk} {d : DenseGrid} {fw fh : Nat} (n : Nat)
    (h : d.DimsEq fw fh) : (DenseGrid.stepN K n d).DimsEq fw fh := by
  induction n generalizing d with
  | zero => exact h
  | succ n ih => exact ih (DenseGrid.step_dims h)

theorem DenseGrid.stepN_order (K : Blocks4 → Blk) (n : Nat) (d : DenseGrid) :
    (DenseGrid.stepN K n d).order = d.order := by
  induction n generalizing d with
  | zero => rfl
  | succ n ih => exact (ih _).trans rfl

theorem DenseGrid.new_dims (order width height : Nat) :
    (DenseGrid.new order width height).DimsEq width ((width + 1) * (height + 1) / width) := by
  unfold DenseGrid.new DenseGrid.DimsEq Array2D.height
  simp [Array2D.from_array]

/-! ## Dead grids stay dead -/

theorem blkAllDead_get {b : Blk} (h : blkAllDead b) (x y : Nat) :
    b.get x y = false := by
  unfold Array2D.get
  split
  · rw [List.getD_eq_getD_get?]
    rcases hg : b.data.get? (b.idx x y) with _ | v
    · rfl
    · have hv : v ∈ b.data := List.get?_mem hg
      simp [h v hv]
  · rfl

theorem blkAllDead_block_get {b : Blk} (h : blkAllDead b) (w x y : Nat) :
    Block.get w b x y = false := by
  unfold Block.get
  rw [List.getD_eq_getD_get?]
  rcases hg : b.data.get? (Block.index w x y) with _ | v
  · rfl
  · simp [h v (List.get?_mem hg)]

theorem blkAllDead_replicate (w : Nat) (n : Nat) :
    blkAllDead ⟨w, List.replicate n false⟩ := by
  intro c hc
  exact List.eq_of_mem_replicate hc

theorem blkAllDead_zeros_like (b : Blk) : blkAllDead (Block.zeros_like b) :=
  blkAllDead_replicate _ _

theorem blkAllDead_zero (w : Nat) : blkAllDead (Block.zero w) :=
  blkAllDead_replicate _ _

theorem allDead_blocks_get {a : Array2D Blk} (h : ∀ b ∈ a.data, blkAllDead b) (x y : Nat) :
    blkAllDead (a.get x y) := by
  unfold Array2D.get
  split
  · rw [List.getD_eq_getD_get?]
    rcases hg : a.data.get? (a.idx x y) with _ | v
    · intro c hc
      exact absurd hc (List.not_mem_nil c)
    · exact h v (List.get?_mem hg)
  · intro c hc
    exact absurd hc (List.not_mem_nil c)

theorem get_block_zero_borders_allDead {arr : Array2D Blk}
    (h : ∀ b ∈ arr.data, blkAllDead b) (x y : Int) :
    blkAllDead (get_block_zero_borders arr x y) := by
  unfold get_block_zero_borders
  split
  · exact blkAllDead_zeros_like _
  · exact allDead_blocks_get h _ _

theorem Array2D.set_allP {α : Type} (P : α → Prop) (a : Array2D α) (x y : Nat) (v : α)
    (h : ∀ c ∈ a.data, P c) (hv : P v) : ∀ c ∈ (a.set x y v).data, P c := by
  intro c hc
  unfold Array2D.set at hc
  split at hc
  · rcases List.mem_or_eq_of_mem_set hc with hm | hm
    · exact h c hm
    · exact hm ▸ hv
  · exact h c hc

theorem foldl_set_allP {α β : Type} (P : α → Prop) (l : List β)
    (g : Array2D α → β → Array2D α) (a : Array2D α)
    (hg : ∀ acc b, (∀ c ∈ acc.data, P c) → ∀ c ∈ (g acc b).data, P c)
    (ha : ∀ c ∈ a.data, P c) : ∀ c ∈ (l.foldl g a).data, P c := by
  induction l generalizing a with
  | nil => exact ha
  | cons x xs ih => exact ih (g a x) (hg a x ha)

theorem buf_allFalse (w : Nat) (bs : Blocks4)
    (h0 : blkAllDead bs.b0) (h1 : blkAllDead bs.b1) (h2 : blkAllDead bs.b2)
    (h3 : blkAllDead bs.b3) : blkAllDead (LayeredKernel.buf w bs) := by
  unfold LayeredKernel.buf
  apply foldl_set_allP (fun c => c = false)
  · intro acc i hacc
    apply foldl_set_allP (fun c => c = false)
    · intro acc2 j hacc2
      unfold copyInto
      apply foldl_set_allP (fun c => c = false)
      · intro acc3 x hacc3
        apply foldl_set_allP (fun c => c = false)
        · intro acc4 y hacc4
          apply Array2D.set_allP _ _ _ _ _ hacc4
          have hblk : blkAllDead (bs.blk (i + 2 * j)) := by
            unfold Blocks4.blk
            split
            · exact h0
            · exact h1
            · exact h2
            · exact h3
          exact blkAllDead_get hblk _ _
        · exact hacc3
      · exact hacc2
    · exact hacc
  · intro c hc
    exact List.eq_of_mem_replicate hc

theorem foldl_const_id {α β : Type} (l : List β) (a : α) :
    l.foldl (fun acc _ => acc) a = a := by
  induction l generalizing a with
  | nil => rfl
  | cons x xs ih => exact ih a

theorem layerCount_zero (layer buf : Array2D Bool) (i j : Nat)
    (hbuf : ∀ p q, buf.get p q = false) :
    LayeredKernel.layerCount layer buf i j = 0 := by
  unfold LayeredKernel.layerCount
  rw [List.foldl_ext _ (fun acc _ => acc) 0 ?_, foldl_const_id]
  intro a y _
  rw [List.foldl_ext _ (fun acc _ => acc) a ?_, foldl_const_id]
  intro a2 x _
  rw [hbuf, Bool.and_false]
  rfl

theorem map_const_replicate {γ δ : Type} (l : List γ) (c : δ) :
    l.map (fun _ => c) = List.replicate l.length c := by
  induction l with
  | nil => rfl
  | cons x xs ih => simp [ih, List.replicate_succ]

theorem outfold_mem {γ : Type} (w m : Nat) (cell : Nat → Nat → γ) (c : γ)
    (h : c ∈ (List.range m).foldl
      (fun acc j => (List.range w).foldl (fun acc2 i => acc2 ++ [cell i j]) acc) []) :
    ∃ i j, c = cell i j := by
  induction m with
  | zero => simp at h
  | succ m ih =>
    rw [outfold_succ] at h
    rcases List.mem_append.mp h with h | h
    · exact ih h
    · obtain ⟨i, _, hi⟩ := List.mem_map.mp h
      exact ⟨i, m, hi.symm⟩

theorem run_allDead (lk : LayeredKernel) (bs : Blocks4)
    (hdec : lk.decider false (List.replicate lk.layers.length 0) = false)
    (h0 : blkAllDead bs.b0) (h1 : blkAllDead bs.b1) (h2 : blkAllDead bs.b2)
    (h3 : blkAllDead bs.b3) : blkAllDead (lk.run bs) := by
  intro c hc
  obtain ⟨i, j, hcell⟩ := outfold_mem _ _ _ c hc
  subst hcell
  unfold LayeredKernel.cell
  have hbufdead := buf_allFalse (calc_block_width lk.block_order) bs h0 h1 h2 h3
  have hbufget : ∀ p q, (LayeredKernel.buf (calc_block_width lk.block_order) bs).get p q
      = false := fun p q => blkAllDead_get hbufdead p q
  rw [hbufget]
  rw [List.map_congr_left (fun layer _ => layerCount_zero layer _ i j hbufget)]
  rw [show lk.layers.map (fun _ => 0) = List.replicate lk.layers.length 0 from
    map_const_replicate _ _]
  exact hdec

theorem step_allDead (lk : LayeredKernel) (d : DenseGrid)
    (hdec : lk.decider false (List.replicate lk.layers.length 0) = false)
    (h : d.AllDead) : (DenseGrid.step (fun bs => lk.run bs) d).AllDead := by
  constructor
  · show ∀ b ∈ (DenseGrid.step (fun bs => lk.run bs) d).front.data, blkAllDead b
    apply foldl_set_allP blkAllDead
    · intro acc i hacc
      apply foldl_set_allP blkAllDead
      · intro acc2 j hacc2
        apply Array2D.set_allP _ _ _ _ _ hacc2
        apply run_allDead lk _ hdec
        · exact get_block_zero_borders_allDead h.1 _ _
        · exact get_block_zero_borders_allDead h.1 _ _
        · exact get_block_zero_borders_allDead h.1 _ _
        · exact get_block_zero_borders_allDead h.1 _ _
      · exact hacc
    · exact h.2
  · exact h.1

theorem stepN_allDead (lk : LayeredKernel) (d : DenseGrid) (n : Nat)
    (hdec : lk.decider false (List.replicate lk.layers.length 0) = false)
    (h : d.AllDead) : (DenseGrid.stepN (fun bs => lk.run bs) n d).AllDead := by
  induction n generalizing d with
  | zero => exact h
  | succ n ih => exact ih _ (step_allDead lk d hdec h)

/-! ## The claims -/

/-- C1: for every inner kernel with a deterministic decider (embedded as the
pure function `f`) and every sequence of `exec` calls (any reachable cache
state), the memoizing wrapper `KernelCache` returns on each call exactly the
block the bare kernel would return for the same four input blocks (and in
particular the `unwrap` cannot panic). -/
theorem C1_cache_transparent (f : Blocks4 → Blk) (bs : Blocks4) (s : KernelCache)
    (h : KernelCache.Reachable f s) : (KernelCache.exec f bs s).1 = some (f bs) :=
  exec_fst_correct f bs s (reachable_inv f s h)

theorem C1_cache_transparent_witness :
    (KernelCache.exec constKernel bs0 KernelCache.init).1 = some (constKernel bs0) :=
  C1_cache_transparent constKernel bs0 KernelCache.init KernelCache.Reachable.init

/-- C8: after any sequence of `exec` calls, every identity appearing in the
solutions LRU (as a key component or as the value) has an entry in the value
map and is the target of some entry in the content-id map; and the garbage
collection pass, applied to such a state, retains exactly the identities
reachable from the solutions LRU in both maps. -/
theorem C8_gc_invariant (f : Blocks4 → Blk) (s : KernelCache)
    (h : KernelCache.Reachable f s) :
    (∀ i ∈ solutionIds s.solutions,
      (∃ b, (i, b) ∈ s.values) ∧ (∃ b, (b, i) ∈ s.cache)) ∧
    (∀ i : Nat, ((∃ b, (i, b) ∈ s.gc.values) ↔ i ∈ solutionIds s.solutions) ∧
      ((∃ b, (b, i) ∈ s.gc.cache) ↔ i ∈ solutionIds s.solutions)) := by
  have hInv := reachable_inv f s h
  exact ⟨fun i hi => sol_ids_have_entries f s hInv hi, fun i => gc_exact f s hInv i⟩

theorem C8_gc_invariant_witness :
    (∀ i ∈ solutionIds (KernelCache.exec constKernel bs0 KernelCache.init).2.solutions,
      (∃ b, (i, b) ∈ (KernelCache.exec constKernel bs0 KernelCache.init).2.values) ∧
      (∃ b, (b, i) ∈ (KernelCache.exec constKernel bs0 KernelCache.init).2.cache)) ∧
    (∀ i : Nat,
      ((∃ b, (i, b) ∈ (KernelCache.exec constKernel bs0 KernelCache.init).2.gc.values) ↔
        i ∈ solutionIds (KernelCache.exec constKernel bs0 KernelCache.init).2.solutions) ∧
      ((∃ b, (b, i) ∈ (KernelCache.exec constKernel bs0 KernelCache.init).2.gc.cache) ↔
        i ∈ solutionIds (KernelCache.exec constKernel bs0 KernelCache.init).2.solutions)) :=
  C8_gc_invariant constKernel _
    (KernelCache.Reachable.step bs0 KernelCache.Reachable.init)

/-- C2 (amended): one `Dense::step` call writes, for every destination
`(i, j)` with `i < front.width − 1` and `j < front.height − 1` (not
`W + 1` × `H + 1` as claimed: the loops stop one short of each front
dimension), the kernel's output for the four front-buffer blocks gathered at
the phase-dependent origin — `(i−1, j−1)` when `zero_borders` is true,
`(i, j)` otherwise, out-of-range coordinates yielding a fresh zero block —
into `back[(i, j)]`, leaves every other back entry unchanged, and afterwards
swaps front with back and toggles `zero_borders`. -/
theorem C2_step_characterized (K : Blocks4 → Blk) (d : DenseGrid)
    (hw : d.back.width = d.front.width) (hh : d.back.height = d.front.height) :
    (DenseGrid.step K d).back = d.front ∧
    (DenseGrid.step K d).zero_borders = !d.zero_borders ∧
    (∀ i j, i < d.front.width - 1 → j < d.front.height - 1 →
      (DenseGrid.step K d).front.get? i j =
        some (K (DenseGrid.gather d.front d.zero_borders i j))) ∧
    (∀ i j, d.front.width - 1 ≤ i ∨ d.front.height - 1 ≤ j →
      (DenseGrid.step K d).front.get? i j = d.back.get? i j) := by
  refine ⟨DenseGrid.step_back K d, DenseGrid.step_zero_borders K d, ?_, ?_⟩
  · intro i j hi hj
    rw [DenseGrid.step_front_get?_written K d hi hj,
      if_pos ⟨by rw [hw]; omega, by rw [hh]; omega⟩]
  · exact fun i j h => DenseGrid.step_front_get?_untouched K d h

theorem C2_step_characterized_witness :
    (d6cx.back.width = d6cx.front.width ∧ d6cx.back.height = d6cx.front.height) ∧
    ((DenseGrid.step constKernel d6cx).back = d6cx.front ∧
    (DenseGrid.step constKernel d6cx).zero_borders = !d6cx.zero_borders ∧
    (∀ i j, i < d6cx.front.width - 1 → j < d6cx.front.height - 1 →
      (DenseGrid.step constKernel d6cx).front.get? i j =
        some (constKernel (DenseGrid.gather d6cx.front d6cx.zero_borders i j))) ∧
    (∀ i j, d6cx.front.width - 1 ≤ i ∨ d6cx.front.height - 1 ≤ j →
      (DenseGrid.step constKernel d6cx).front.get? i j = d6cx.back.get? i j)) :=
  ⟨⟨by decide, by decide⟩, C2_step_characterized constKernel d6cx (by decide) (by decide)⟩

/-- C2 counterexample: for the grid `Dense::new(kernel, 1, 1)` seeded with a
live block, the claim's destination `(0, 0)` — in range for its
`0 ≤ i < W + 1` bound — is never written: after the step (and swap) the
block at `(0, 0)` is not the kernel's output for the gathered blocks. -/
theorem C2_step_counterexample :
    (DenseGrid.step (fun bs => lifeLK.run bs) d2cx).front.get? 0 0 ≠
      some (lifeLK.run (DenseGrid.gather d2cx.front d2cx.zero_borders 0 0)) := by
  decide

/-- C3, amended: for every valid `LayeredKernel` (block side `w = 2^order`,
mask width `M`) whose mask area `M · M` is below `2^16` — so the `u16`
per-layer counters cannot wrap, which covers every kernel this repository
constructs (`M ≤ 17`) — and every four `w × w` input blocks, `exec` passes
its width assertion and returns, tagged `NewBlock`, the `w × w` block whose
cell `(i, j)` is `decider(buf[i + M/2, j + M/2], counts)` on the NW/NE/SW/SE
assembly `buf`, where `counts[ℓ]` counts the positions at which layer `ℓ`
and the buffer window are both live.  For larger masks the counts are only
the true counts modulo `2^16` (see the counterexample). -/
theorem C3_layered_exec_correct (lk : LayeredKernel) (bs : Blocks4) (hv : lk.Valid)
    (hM : lk.maskWidth * lk.maskWidth < 65536)
    (hbs : bs.Sized (calc_block_width lk.block_order)) :
    lk.exec bs = some (lk.run bs, KernelResult.NewBlock) ∧
    (lk.run bs).width = calc_block_width lk.block_order ∧
    (lk.run bs).height = calc_block_width lk.block_order ∧
    (∀ i j, i < calc_block_width lk.block_order → j < calc_block_width lk.block_order →
      (lk.run bs).get i j =
        lk.decider
          (specBuf (calc_block_width lk.block_order) bs (i + lk.maskWidth / 2)
            (j + lk.maskWidth / 2))
          (specCounts lk (specBuf (calc_block_width lk.block_order) bs) i j)) := by
  refine ⟨?_, LayeredKernel.run_width lk bs, LayeredKernel.run_height lk bs, ?_⟩
  · unfold LayeredKernel.exec
    rw [if_pos hbs.1.1]
  · intro i j hi hj
    rw [LayeredKernel.run_get lk bs hi hj]
    exact LayeredKernel.cell_eq_spec lk bs hv hM hi hj

theorem C3_layered_exec_correct_witness :
    (lifeLK.Valid ∧ lifeLK.maskWidth * lifeLK.maskWidth < 65536 ∧
      bs0.Sized (calc_block_width lifeLK.block_order)) ∧
    (lifeLK.exec bs0 = some (lifeLK.run bs0, KernelResult.NewBlock) ∧
    (lifeLK.run bs0).width = calc_block_width lifeLK.block_order ∧
    (lifeLK.run bs0).height = calc_block_width lifeLK.block_order ∧
    (∀ i j, i < calc_block_width lifeLK.block_order →
        j < calc_block_width lifeLK.block_order →
      (lifeLK.run bs0).get i j =
        lifeLK.decider
          (specBuf (calc_block_width lifeLK.block_order) bs0 (i + lifeLK.maskWidth / 2)
            (j + lifeLK.maskWidth / 2))
          (specCounts lifeLK (specBuf (calc_block_width lifeLK.block_order) bs0) i j))) :=
  ⟨⟨lifeLK_valid, by decide, by unfold Blocks4.Sized; decide⟩,
    C3_layered_exec_correct lifeLK bs0 lifeLK_valid (by decide)
      (by unfold Blocks4.Sized; decide)⟩

/-- C3 counterexample: the valid order-8 kernel `bigLK` (`M = 257`,
`w = 256`, a single all-ones mask, a decider asking whether the first count
equals the mask area 66049) on four all-live 256 × 256 blocks.  `exec`
returns its block, but at cell `(0, 0)` the `u16` counter has wrapped to
`66049 % 2^16 = 513`, so the cell is `false` while the original claim's
prediction — the decider on the true count — is `true`. -/
theorem C3_layered_exec_counterexample :
    bigLK.Valid ∧ bsT.Sized (calc_block_width bigLK.block_order) ∧
    bigLK.exec bsT = some (bigLK.run bsT, KernelResult.NewBlock) ∧
    (bigLK.run bsT).get 0 0 = false ∧
    bigLK.decider
      (specBuf (calc_block_width bigLK.block_order) bsT (0 + bigLK.maskWidth / 2)
        (0 + bigLK.maskWidth / 2))
      (specCounts bigLK (specBuf (calc_block_width bigLK.block_order) bsT) 0 0) = true :=
  ⟨bigLK_valid, bsT_sized, bigExec, bigRun_cell, bigSpec_cell⟩

/-- C4: the claim (and the constructor's own comment, "we add 1 to width and
height") promise `(W+1) × (H+1)` buffers, but `Dense::new` hands
`Array2D::from_array` the width `W`: for `W = H = 1` the front buffer is a
1 × 4 array of blocks, not 2 × 2. -/
theorem C4_new_buffer_shape :
    (DenseGrid.new 1 1 1).front.width = 1 ∧ (DenseGrid.new 1 1 1).front.height = 4 ∧
    ¬((DenseGrid.new 1 1 1).front.width = 1 + 1 ∧
      (DenseGrid.new 1 1 1).front.height = 1 + 1) := by
  decide

/-- C5 (amended): `pixel_dims()` returns the front buffer's dimensions
scaled by the block width `w = 2^order`; for a grid built by
`Dense::new(kernel, W, H)` — whose buffers have width `W` and height
`(W+1)(H+1)/W`, see C4 — that is `(W·w, ((W+1)(H+1)/W)·w)`, not
`(W·w, H·w)`, and the value is unchanged by any number of steps. -/
theorem C5_pixel_dims_characterized (order W H : Nat) (K : Blocks4 → Blk) (n : Nat)
    (hW : 0 < W) :
    (DenseGrid.stepN K n (DenseGrid.new order W H)).pixel_dims =
      (W * calc_block_width order, (W + 1) * (H + 1) / W * calc_block_width order) := by
  have hd := DenseGrid.stepN_dims (K := K) (d := DenseGrid.new order W H) n
    (DenseGrid.new_dims order W H)
  unfold DenseGrid.pixel_dims
  rw [DenseGrid.stepN_order, hd.1, hd.2.1]
  rfl

theorem C5_pixel_dims_characterized_witness :
    0 < 1 ∧
    (DenseGrid.stepN constKernel 2 (DenseGrid.new 1 1 1)).pixel_dims =
      (1 * calc_block_width 1, (1 + 1) * (1 + 1) / 1 * calc_block_width 1) :=
  ⟨by decide, C5_pixel_dims_characterized 1 1 1 constKernel 2 (by decide)⟩

/-- C5 counterexample: the claim's value `(W·w, H·w)` is wrong already for
`Dense::new(kernel, 1, 1)` with the order-1 Life kernel: `pixel_dims()`
returns `(2, 8)`, not `(1·2, 1·2)`. -/
theorem C5_pixel_dims_counterexample :
    DenseGrid.pixel_dims (DenseGrid.new 1 1 1) ≠
      (1 * calc_block_width 1, 1 * calc_block_width 1) := by
  decide

/-- C6: the claim (and spec §4.3) describe `get_pixel` as decomposing the
(phase-shifted) pixel coordinates into a block index and an intra-block
offset; the code instead indexes the block array with the raw pixel
coordinates (no division by the block width), so the in-range pixel `(2, 0)`
of a 4 × 4-pixel grid panics where the described decomposition reads block
`(1, 0)`, offset `(0, 0)`. -/
theorem C6_get_pixel_panics :
    2 < (DenseGrid.pixel_dims d6cx).1 ∧ 0 < (DenseGrid.pixel_dims d6cx).2 ∧
    DenseGrid.get_pixel? d6cx 2 0 = none ∧
    DenseGrid.spec_get_pixel d6cx 2 0 = some true := by
  decide

/-- C7: a grid all of whose cells are dead stays dead under any number of
`Dense::step` calls with a layered kernel whose decider returns `false` on
`(false, all-zero counts)` — in particular the Life kernel. -/
theorem C7_empty_preserved (lk : LayeredKernel) (d : DenseGrid) (n : Nat)
    (hdec : lk.decider false (List.replicate lk.layers.length 0) = false)
    (h : d.AllDead) : (DenseGrid.stepN (fun bs => lk.run bs) n d).AllDead :=
  stepN_allDead lk d n hdec h

theorem C7_empty_preserved_witness :
    (lifeLK.decider false (List.replicate lifeLK.layers.length 0) = false) ∧
    (DenseGrid.new 1 2 2).AllDead ∧
    (DenseGrid.stepN (fun bs => lifeLK.run bs) 2 (DenseGrid.new 1 2 2)).AllDead :=
  ⟨by decide, by unfold DenseGrid.AllDead blkAllDead; decide,
    C7_empty_preserved lifeLK (DenseGrid.new 1 2 2) 2 (by decide)
      (by unfold DenseGrid.AllDead blkAllDead; decide)⟩

/-- C9 (amended): `exec`'s assertion checks only `blocks[0]`: it panics
immediately exactly when the first block's width differs from
`w = 2^order`; the widths of `blocks[1..3]` are not checked (an oversized
block, for instance, executes without a panic — see the counterexample). -/
theorem C9_first_block_width_checked (lk : LayeredKernel) (bs : Blocks4)
    (h : bs.b0.width ≠ calc_block_width lk.block_order) : lk.exec bs = none := by
  unfold LayeredKernel.exec
  rw [if_neg h]

theorem C9_first_block_width_checked_witness :
    (⟨blk3, blkA, blkB, blkC⟩ : Blocks4).b0.width ≠ calc_block_width lifeLK.block_order ∧
    lifeLK.exec ⟨blk3, blkA, blkB, blkC⟩ = none :=
  ⟨by decide, C9_first_block_width_checked lifeLK _ (by decide)⟩

/-- C9 counterexample: a width mismatch in `blocks[1]` (a 4 × 4 block handed
to the order-1 Life kernel) does not make `exec` panic — the claim's "any of
the four blocks" is refuted. -/
theorem C9_counterexample :
    (⟨blkA, blk4, blkB, blkC⟩ : Blocks4).b1.width ≠ calc_block_width lifeLK.block_order ∧
    lifeLK.exec ⟨blkA, blk4, blkB, blkC⟩ ≠ none := by
  decide

/-- C10: on every 4-tuple of 2 × 2 blocks, the hand-written `Life` kernel
and the `LayeredKernel` built by `life_layered_kernel` return equal blocks
(cell for cell, as structural equality of the value pairs). -/
theorem C10_life_kernels_agree (lk : LayeredKernel)
    (hlk : life_layered_kernel = some lk) (bs : Blocks4) (hs : bs.Sized 2) :
    lk.exec bs = some (Life.exec bs) := by
  rw [life_layered_kernel_eq] at hlk
  injection hlk with hlk
  subst hlk
  have hb0 : bs.b0.width = calc_block_width lifeLK.block_order := hs.1.1
  unfold LayeredKernel.exec
  rw [if_pos hb0]
  have hrun : lifeLK.run bs =
      ⟨2, [lifeLK.cell (LayeredKernel.buf (calc_block_width lifeLK.block_order) bs) 0 0,
           lifeLK.cell (LayeredKernel.buf (calc_block_width lifeLK.block_order) bs) 1 0,
           lifeLK.cell (LayeredKernel.buf (calc_block_width lifeLK.block_order) bs) 0 1,
           lifeLK.cell (LayeredKernel.buf (calc_block_width lifeLK.block_order) bs) 1 1]⟩ :=
    rfl
  have hlife : Life.exec bs =
      (⟨2, [Life.cell (Life.buf bs) 0 0, Life.cell (Life.buf bs) 1 0,
            Life.cell (Life.buf bs) 0 1, Life.cell (Life.buf bs) 1 1]⟩,
        KernelResult.NewBlock) := rfl
  rw [hrun, hlife]
  simp only [Option.some.injEq, Prod.mk.injEq, Array2D.mk.injEq, List.cons.injEq,
    and_true, true_and]
  exact ⟨life_cells_agree bs (by omega) (by omega), life_cells_agree bs (by omega) (by omega),
    life_cells_agree bs (by omega) (by omega), life_cells_agree bs (by omega) (by omega)⟩

theorem C10_life_kernels_agree_witness :
    (life_layered_kernel = some lifeLK ∧ bs0.Sized 2) ∧
    lifeLK.exec bs0 = some (Life.exec bs0) :=
  ⟨⟨rfl, by unfold Blocks4.Sized; decide⟩,
    C10_life_kernels_agree lifeLK rfl bs0 (by unfold Blocks4.Sized; decide)⟩
